import Mathlib

/-!
Verification development for the TAO launcher (`nvidia_tao_cli`).

The launcher parses a multi-version JSON configuration into a map from task
names to `Task` records (each naming a docker image, tag, registry and an
optional digest), reads a user mounts file into volume/environment bindings,
and runs a forwarded command inside a docker container.

The embedding below models JSON values with the inductive type `J`, Python
dict-indexing with `getItem`/`alookup`, exceptions with `Except String`, and
the handful of external effects (filesystem existence checks, the docker
engine, subprocesses) as explicit parameters.  The functions mirror:
  * `nvidia_tao_cli/components/types/task.py` (`Task`, `Task.from_config`),
  * `nvidia_tao_cli/components/instance_handler/local_instance.py` and
    `whl_instance.py` (`parse_launcher_config`, `launch_command`, the
    built-in operations),
  * `nvidia_tao_cli/components/instance_handler/builder.py` (`get_launcher`),
  * `nvidia_tao_cli/components/docker_handler/docker_handler.py`
    (`_get_mount_env_data`, `_check_image_exists`, `formatted_mounts`,
    `formatted_envs`, `run_container`).
-/

namespace Tao

/-- JSON values, as produced by Python's `json.load`.  Numbers are modelled
as rationals (Python floats/ints at the values the launcher compares against
are exact). -/
inductive J where
  | null
  | bool (b : Bool)
  | num (q : Rat)
  | str (s : String)
  | arr (elems : List J)
  | obj (fields : List (String × J))

/-- Association-list lookup: the value stored under the first occurrence of
`key`.  Python dicts have unique keys, so this is plain dict indexing. -/
def alookup {α : Type} : List (String × α) → String → Option α
  | [], _ => none
  | (k, v) :: rest, key => if k = key then some v else alookup rest key

/-- Python `d[k] = v`: replace the value at the first occurrence of `k`
keeping its position, or append `(k, v)` when `k` is absent. -/
def dictInsert {α : Type} (m : List (String × α)) (k : String) (v : α) :
    List (String × α) :=
  if (m.map Prod.fst).contains k then
    m.map (fun kv => if kv.1 = k then (k, v) else kv)
  else m ++ [(k, v)]

/-- Build a Python dict by inserting the entries in order (this is what a
dict comprehension followed by `dict.update` amounts to). -/
def buildMap {α : Type} (entries : List (String × α)) : List (String × α) :=
  entries.foldl (fun m e => dictInsert m e.1 e.2) []

/-- Python set `add` folded over a list, keeping first-insertion order. -/
def setAdd (s : List String) (x : String) : List String :=
  if s.contains x then s else s ++ [x]

/-- Python `obj[key]` on a JSON value: `KeyError` when the key is missing,
`TypeError` when the value is not a dict. -/
def getItem : J → String → Except String J
  | .obj fields, key =>
    match alookup fields key with
    | some v => .ok v
    | none => .error ("KeyError: " ++ key)
  | _, _ => .error "TypeError: value is not subscriptable"

/-- Python `obj[key] if key in obj.keys() else None` / `obj.get(key, None)`. -/
def optGet : J → String → Option J
  | .obj fields, key => alookup fields key
  | _, _ => none

/-- Python `==` between a JSON value and a float literal: numbers compare by
value and booleans compare as the numbers 1/0 (`bool` is an `int` subclass);
all other values compare unequal. -/
def pyEqFloat : J → Rat → Bool
  | .num q, r => q == r
  | .bool b, r => (if b then (1 : Rat) else 0) == r
  | _, _ => false

/-- `mapM` for `Except`, written structurally: evaluate `f` left to right
and stop at the first raise, exactly like a Python comprehension. -/
def exMapM {α β : Type} (f : α → Except String β) :
    List α → Except String (List β)
  | [] => .ok []
  | x :: xs => do
    let y ← f x
    let ys ← exMapM f xs
    pure (y :: ys)

/-- `foldlM` for `Except`, written structurally: a Python `for` loop over
`xs` threading an accumulator, stopping at the first raise. -/
def exFoldl {σ α : Type} (f : σ → α → Except String σ) (init : σ) :
    List α → Except String σ
  | [] => .ok init
  | x :: xs => do
    let s ← f init x
    exFoldl f s xs

/-- Number of occurrences of the JSON string `s` in a list of JSON values. -/
def strCount (ts : List J) (s : String) : Nat :=
  ts.countP (fun t => match t with | .str a => a == s | _ => false)

/-- `components/types/task.py`: the `Task` record.  Fields other than the
name default to `None`; values come straight from the parsed JSON. -/
structure Task where
  name : J
  docker_image : Option J := none
  docker_tag : Option J := none
  docker_registry : Option J := none
  docker_digest : Option J := none

/-- `Task.__init__`: store the fields, replacing the registry by the
`OVERRIDE_REGISTRY` environment variable when that is set. -/
def Task.make (overrideRegistry : Option String) (name : J)
    (docker_image docker_tag docker_registry docker_digest : Option J) :
    Task :=
  { name := name
    docker_image := docker_image
    docker_tag := docker_tag
    docker_registry :=
      match overrideRegistry with
      | some r => some (J.str r)
      | none => docker_registry
    docker_digest := docker_digest }

/-- `Task.from_config`: the mandatory-argument key list. -/
def mandatory_args : List String :=
  ["name", "docker_image", "docker_tag", "docker_registry"]

/-- `Task.from_config`: assert the data is a dict whose keys all lie in
`mandatory_args`, read the four mandatory fields, and pass `docker_digest`
as a keyword argument when (and only when) it is present. -/
def Task.from_config (overrideRegistry : Option String) (config_data : J) :
    Except String Task := do
  let .obj fields := config_data | throw "The config data should be a dictionary."
  if ! fields.all (fun kv => mandatory_args.contains kv.1) then
    throw "AssertionError: config keys must be mandatory args"
  let name ← getItem config_data "name"
  let image ← getItem config_data "docker_image"
  let tag ← getItem config_data "docker_tag"
  let registry ← getItem config_data "docker_registry"
  let digest := optGet config_data "docker_digest"
  pure (Task.make overrideRegistry name (some image) (some tag)
    (some registry) digest)

/-- The per-tag inner comprehension shared by the 2.0 branch and the 3.0
branch of `parse_launcher_config`:
`{task: Task(name=task, docker_image=image, docker_tag=tag,
             docker_registry=data[tag]["docker_registry"],
             docker_digest=data[tag].get("docker_digest", None))
  for task in data[tag]["tasks"]}`
returned as the list of `(task, Task)` entries in iteration order. -/
def tagTaskEntry (overrideRegistry : Option String) (image tag : String)
    (tagData : J) (tj : J) : Except String (String × Task) := do
  let .str task := tj | throw "TypeError: invalid task name"
  let registry ← getItem tagData "docker_registry"
  pure (task, Task.make overrideRegistry (J.str task) (some (J.str image))
    (some (J.str tag)) (some registry) (optGet tagData "docker_digest"))

def tagEntries (overrideRegistry : Option String) (image : String)
    (dockerData : J) (tag : String) : Except String (List (String × Task)) := do
  let tagData ← getItem dockerData tag
  let .arr tasks ← getItem tagData "tasks"
    | throw "TypeError: tasks is not iterable"
  exMapM (tagTaskEntry overrideRegistry image tag tagData) tasks

/-- Format 1.0: `docker_data = config_data["dockers"][image]`; raise
`NotImplementedError` when `"tasks"` is not among its keys; then
`{task: Task(name=task, docker_image=image,
             docker_tag=docker_data["docker_tag"],
             docker_registry=docker_data["docker_registry"],
             docker_digest=docker_data.get("docker_digest") or None)
  for task in docker_data["tasks"]}`. -/
def v1TaskEntry (overrideRegistry : Option String) (image : String)
    (dockerData : J) (tj : J) : Except String (String × Task) := do
  let .str task := tj | throw "TypeError: invalid task name"
  let tag ← getItem dockerData "docker_tag"
  let registry ← getItem dockerData "docker_registry"
  pure (task, Task.make overrideRegistry (J.str task) (some (J.str image))
    (some tag) (some registry) (optGet dockerData "docker_digest"))

def v1ImageEntries (overrideRegistry : Option String) (dockers : J)
    (image : String) : Except String (List (String × Task)) := do
  let dockerData ← getItem dockers image
  let .obj dd := dockerData | throw "AttributeError: keys"
  let some tasksJ := alookup dd "tasks"
    | throw "The config data must contain tasks associated with the respective docker."
  let .arr tasks := tasksJ | throw "TypeError: tasks is not iterable"
  exMapM (v1TaskEntry overrideRegistry image dockerData) tasks

/-- Format 2.0: `docker_data = config_data["dockers"][image]` must be a dict
(`ValueError` otherwise); entries come from the double comprehension
`for tag in docker_data.keys() for task in docker_data[tag]["tasks"]`. -/
def v2ImageEntries (overrideRegistry : Option String) (dockers : J)
    (image : String) : Except String (List (String × Task)) := do
  let dockerData ← getItem dockers image
  let .obj dd := dockerData | throw "Invalid format."
  let lists ← exMapM (tagEntries overrideRegistry image dockerData)
    (dd.map Prod.fst)
  pure lists.flatten

/-- Format 3.0, one task group: iterate `group_data["dockers"].items()`;
each `image_data` must be a dict (`ValueError` otherwise); entries come from
`for tag in image_data.keys() for task in image_data[tag]["tasks"]`.
Returns the `(task, Task)` entries together with the docker image names
added to the `docker_images` set. -/
def v3ImageEntries (overrideRegistry : Option String) (kv : String × J) :
    Except String (List (String × Task)) := do
  let (image, imageData) := kv
  let .obj idd := imageData
    | throw "Invalid data format for images encountered."
  let tagLists ← exMapM (tagEntries overrideRegistry image imageData)
    (idd.map Prod.fst)
  pure tagLists.flatten

def v3GroupEntries (overrideRegistry : Option String) (groupData : J) :
    Except String (List (String × Task) × List String) := do
  let dockersJ ← getItem groupData "dockers"
  let .obj dockers := dockersJ | throw "AttributeError: items"
  let lists ← exMapM (v3ImageEntries overrideRegistry) dockers
  pure (lists.flatten, dockers.map Prod.fst)

/-- Format 3.0, the body of the `for task_group, group_data in
config_data["task_group"].items()` loop: build that group's local map and
report the images it contributes to the `docker_images` set. -/
def v3GroupMapEntry (overrideRegistry : Option String) (kv : String × J) :
    Except String ((String × List (String × Task)) × List String) := do
  let (tg, groupData) := kv
  let (entries, images) ← v3GroupEntries overrideRegistry groupData
  pure ((tg, buildMap entries), images)

/-- `parse_launcher_config` (identical algorithm in
`local_instance.py` and `whl_instance.py`): dispatch on `format_version`
(`KeyError` when the key is absent, `NotImplementedError` for an unknown
version) and build the task map together with the set of docker images.
For formats 1.0 and 2.0 every task lands in the single top-level key
`"container_actions"`; for format 3.0 there is one top-level key per entry
of `config_data["task_group"]`. -/
def parse_launcher_config (overrideRegistry : Option String)
    (config_data : J) :
    Except String (List (String × List (String × Task)) × List String) := do
  let .obj cfg := config_data | throw "AttributeError: keys"
  let some fv := alookup cfg "format_version"
    | throw "format is a required key in the launcher config."
  if pyEqFloat fv 1 then
    let dockersJ ← getItem config_data "dockers"
    let .obj dockers := dockersJ | throw "AttributeError: keys"
    let lists ← exMapM (v1ImageEntries overrideRegistry dockersJ)
      (dockers.map Prod.fst)
    pure ([("container_actions", buildMap lists.flatten)],
      (dockers.map Prod.fst).foldl setAdd [])
  else if pyEqFloat fv 2 then
    let dockersJ ← getItem config_data "dockers"
    let .obj dockers := dockersJ | throw "AttributeError: keys"
    let lists ← exMapM (v2ImageEntries overrideRegistry dockersJ)
      (dockers.map Prod.fst)
    pure ([("container_actions", buildMap lists.flatten)],
      (dockers.map Prod.fst).foldl setAdd [])
  else if pyEqFloat fv 3 then
    let tgJ ← getItem config_data "task_group"
    let .obj tgs := tgJ | throw "AttributeError: items"
    let groups ← exMapM (v3GroupMapEntry overrideRegistry) tgs
    pure (buildMap (groups.map Prod.fst),
      (groups.map Prod.snd).flatten.foldl setAdd [])
  else
    throw "Invalid format type."

/-! ### Association-list and monadic-iteration lemmas -/

theorem alookup_append {α : Type} (l₁ l₂ : List (String × α)) (k : String) :
    alookup (l₁ ++ l₂) k =
      match alookup l₁ k with
      | some v => some v
      | none => alookup l₂ k := by
  induction l₁ with
  | nil => simp [alookup]
  | cons kv rest ih =>
    obtain ⟨k', v'⟩ := kv
    by_cases h : k' = k <;> simp [alookup, h, ih]

theorem alookup_eq_none_of_not_containsKey {α : Type}
    {m : List (String × α)} {k : String}
    (h : (m.map Prod.fst).contains k = false) : alookup m k = none := by
  induction m with
  | nil => simp [alookup]
  | cons kv rest ih =>
    simp only [List.map_cons, List.contains_cons, Bool.or_eq_false_iff,
      beq_eq_false_iff_ne] at h
    have h1 : ¬ kv.1 = k := fun hh => h.1 hh.symm
    simp [alookup, h1, ih h.2]

theorem alookup_replace {α : Type} (m : List (String × α)) (k' k : String)
    (v' : α) :
    alookup (m.map (fun kv => if kv.1 = k' then (k', v') else kv)) k =
      if k' = k then
        (if (m.map Prod.fst).contains k' then some v' else none)
      else alookup m k := by
  induction m with
  | nil => by_cases h : k' = k <;> simp [alookup, h]
  | cons kv rest ih =>
    obtain ⟨a, b⟩ := kv
    by_cases ha : a = k'
    · have hhead : (if (a, b).1 = k' then ((k', v') : String × α) else (a, b)) =
        (k', v') := by simp [ha]
      rw [List.map_cons, hhead]
      have hcont : ((a :: rest.map Prod.fst).contains k') = true := by
        rw [List.contains_cons]
        have h1 : (k' == a) = true := by rw [beq_iff_eq]; exact ha.symm
        rw [h1, Bool.true_or]
      by_cases hk : k' = k
      · subst hk
        rw [if_pos rfl, List.map_cons, hcont, if_pos rfl]
        simp [alookup]
      · have hak : ¬ a = k := fun h => hk (ha ▸ h)
        rw [if_neg hk]
        show (if k' = k then some v' else
          alookup (rest.map (fun kv => if kv.1 = k' then (k', v') else kv)) k) =
          alookup ((a, b) :: rest) k
        rw [if_neg hk, ih, if_neg hk]
        show alookup rest k = if a = k then some b else alookup rest k
        rw [if_neg hak]
    · have hhead : (if (a, b).1 = k' then ((k', v') : String × α) else (a, b)) =
        (a, b) := by simp [ha]
      rw [List.map_cons, hhead]
      have hcont : ((a :: rest.map Prod.fst).contains k') =
          ((rest.map Prod.fst).contains k') := by
        rw [List.contains_cons]
        have h1 : (k' == a) = false := by
          rw [beq_eq_false_iff_ne]; exact fun h => ha h.symm
        rw [h1, Bool.false_or]
      by_cases hk : a = k
      · subst hk
        have hk' : ¬ k' = a := fun h => ha h.symm
        simp [alookup, hk', ih]
      · show (if a = k then some b else
          alookup (rest.map (fun kv => if kv.1 = k' then (k', v') else kv)) k) = _
        rw [if_neg hk, ih, List.map_cons, hcont]
        by_cases h : k' = k
        · rw [if_pos h, if_pos h]
        · rw [if_neg h, if_neg h]
          show alookup rest k = if a = k then some b else alookup rest k
          rw [if_neg hk]

theorem alookup_dictInsert {α : Type} (m : List (String × α))
    (k' k : String) (v' : α) :
    alookup (dictInsert m k' v') k =
      if k' = k then some v' else alookup m k := by
  unfold dictInsert
  by_cases hc : (m.map Prod.fst).contains k'
  · rw [if_pos hc, alookup_replace, if_pos hc]
  · rw [if_neg hc, alookup_append]
    have hnone := alookup_eq_none_of_not_containsKey (Bool.eq_false_iff.mpr hc)
    by_cases h : k' = k
    · subst h
      rw [hnone]
      simp [alookup]
    · rw [if_neg h]
      cases hm : alookup m k with
      | some v => rfl
      | none => simp [alookup, h]

theorem alookup_foldl_dictInsert {α : Type} (entries : List (String × α))
    (acc : List (String × α)) (k : String) :
    alookup (entries.foldl (fun m e => dictInsert m e.1 e.2) acc) k =
      match alookup entries.reverse k with
      | some v => some v
      | none => alookup acc k := by
  induction entries generalizing acc with
  | nil => simp [alookup]
  | cons e rest ih =>
    simp only [List.foldl_cons, List.reverse_cons]
    rw [ih, alookup_append]
    cases h : alookup rest.reverse k with
    | some v => rfl
    | none =>
      rw [alookup_dictInsert]
      by_cases he : e.1 = k
      · simp [alookup, he]
      · simp [alookup, he]

theorem alookup_buildMap {α : Type} (entries : List (String × α)) (k : String) :
    alookup (buildMap entries) k = alookup entries.reverse k := by
  unfold buildMap
  rw [alookup_foldl_dictInsert]
  cases h : alookup entries.reverse k <;> simp [alookup]

theorem mem_of_alookup_eq_some {α : Type} {m : List (String × α)} {k : String}
    {v : α} (h : alookup m k = some v) : (k, v) ∈ m := by
  induction m with
  | nil => simp [alookup] at h
  | cons kv rest ih =>
    obtain ⟨a, b⟩ := kv
    by_cases ha : a = k
    · subst ha
      have hbv : b = v := by simpa [alookup] using h
      subst hbv
      exact List.mem_cons_self _ _
    · simp only [alookup, if_neg ha] at h
      exact List.mem_cons_of_mem _ (ih h)

theorem mem_keys_of_alookup_eq_some {α : Type} {m : List (String × α)}
    {k : String} {v : α} (h : alookup m k = some v) : k ∈ m.map Prod.fst := by
  exact List.mem_map_of_mem Prod.fst (mem_of_alookup_eq_some h)

theorem alookup_eq_some_of_count_one {α : Type} {m : List (String × α)}
    {k : String} {v : α} (hmem : (k, v) ∈ m)
    (hcount : (m.map Prod.fst).count k = 1) : alookup m k = some v := by
  induction m with
  | nil => cases hmem
  | cons kv rest ih =>
    obtain ⟨a, b⟩ := kv
    by_cases ha : a = k
    · subst ha
      have hz : (rest.map Prod.fst).count a = 0 := by
        have := hcount
        rw [List.map_cons, List.count_cons] at this
        simp at this
        omega
      rcases List.mem_cons.mp hmem with heq | hrest
      · obtain ⟨⟩ := heq
        simp [alookup]
      · exfalso
        have : a ∈ rest.map Prod.fst := List.mem_map_of_mem Prod.fst hrest
        rw [← List.count_pos_iff] at this
        omega
    · rcases List.mem_cons.mp hmem with heq | hrest
      · exact absurd (congrArg Prod.fst heq).symm ha
      · have hcount' : (rest.map Prod.fst).count k = 1 := by
          rw [List.map_cons, List.count_cons] at hcount
          have hne : (a == k) = false := beq_eq_false_iff_ne.mpr ha
          simp only [hne] at hcount
          simpa using hcount
        simp only [alookup, if_neg ha]
        exact ih hrest hcount'

theorem mem_dictInsert_elim {α : Type} {m : List (String × α)} {k : String}
    {v : α} {p : String × α} (h : p ∈ dictInsert m k v) :
    p ∈ m ∨ p = (k, v) := by
  unfold dictInsert at h
  by_cases hc : (m.map Prod.fst).contains k
  · rw [if_pos hc] at h
    rcases List.mem_map.mp h with ⟨kv, hkv, heq⟩
    by_cases hkk : kv.1 = k
    · right; rw [← heq]; simp [hkk]
    · left; rw [← heq]; simpa [hkk] using hkv
  · rw [if_neg hc] at h
    rcases List.mem_append.mp h with hm | hs
    · exact Or.inl hm
    · right; simpa using hs

theorem mem_foldl_dictInsert_elim {α : Type} {entries : List (String × α)}
    {acc : List (String × α)} {p : String × α}
    (h : p ∈ entries.foldl (fun m e => dictInsert m e.1 e.2) acc) :
    p ∈ acc ∨ p ∈ entries := by
  induction entries generalizing acc with
  | nil => exact Or.inl h
  | cons e rest ih =>
    simp only [List.foldl_cons] at h
    rcases ih h with hacc | hrest
    · rcases mem_dictInsert_elim hacc with hm | he
      · exact Or.inl hm
      · exact Or.inr (by rw [he]; exact List.mem_cons_self _ _)
    · exact Or.inr (List.mem_cons_of_mem _ hrest)

theorem mem_buildMap_elim {α : Type} {entries : List (String × α)}
    {p : String × α} (h : p ∈ buildMap entries) : p ∈ entries := by
  rcases mem_foldl_dictInsert_elim h with hacc | hmem
  · cases hacc
  · exact hmem

theorem foldl_dictInsert_of_disjoint {α : Type} (entries : List (String × α))
    (acc : List (String × α))
    (hnd : (entries.map Prod.fst).Nodup)
    (hdisj : ∀ p ∈ entries, ¬ p.1 ∈ acc.map Prod.fst) :
    entries.foldl (fun m e => dictInsert m e.1 e.2) acc = acc ++ entries := by
  induction entries generalizing acc with
  | nil => simp
  | cons e rest ih =>
    simp only [List.foldl_cons]
    have hc : ((acc.map Prod.fst).contains e.1) = false := by
      simpa using hdisj e (List.mem_cons_self _ _)
    have hins : dictInsert acc e.1 e.2 = acc ++ [e] := by
      unfold dictInsert
      rw [hc]
      simp
    rw [hins]
    have hnd' : (rest.map Prod.fst).Nodup := by
      rw [List.map_cons] at hnd
      exact (List.nodup_cons.mp hnd).2
    have hdisj' : ∀ p ∈ rest, ¬ p.1 ∈ (acc ++ [e]).map Prod.fst := by
      intro p hp
      rw [List.map_append]
      intro hmem
      rcases List.mem_append.mp hmem with h1 | h2
      · exact hdisj p (List.mem_cons_of_mem _ hp) h1
      · have he1 : p.1 = e.1 := by simpa using h2
        rw [List.map_cons] at hnd
        have := (List.nodup_cons.mp hnd).1
        exact this (he1 ▸ List.mem_map_of_mem Prod.fst hp)
    rw [ih (acc ++ [e]) hnd' hdisj', List.append_assoc]
    rfl

theorem buildMap_eq_self_of_nodup {α : Type} (entries : List (String × α))
    (hnd : (entries.map Prod.fst).Nodup) : buildMap entries = entries := by
  unfold buildMap
  rw [foldl_dictInsert_of_disjoint entries [] hnd (by intro p _; simp)]
  rfl

theorem exMapM_ok_iff {α β : Type} (f : α → Except String β) (l : List α)
    (ys : List β) :
    exMapM f l = .ok ys ↔ List.Forall₂ (fun x y => f x = .ok y) l ys := by
  induction l generalizing ys with
  | nil =>
    constructor
    · intro h
      cases h
      exact List.Forall₂.nil
    · intro h
      cases h
      rfl
  | cons x xs ih =>
    constructor
    · intro h
      cases hf : f x with
      | error e => rw [exMapM, hf] at h; cases h
      | ok y =>
        rw [exMapM, hf] at h
        cases hrest : exMapM f xs with
        | error e => rw [hrest] at h; cases h
        | ok ys' =>
          rw [hrest] at h
          have : y :: ys' = ys := by
            simpa [Bind.bind, Except.bind, pure, Except.pure] using h
          subst this
          exact List.Forall₂.cons hf ((ih ys').mp hrest)
    · intro h
      cases h with
      | cons hf hrest =>
        rw [exMapM, hf, (ih _).mpr hrest]
        rfl

theorem exMapM_error_of_mem {α β : Type} {f : α → Except String β}
    {l : List α} {x : α} (hx : x ∈ l) (he : ∀ y, ¬ f x = .ok y) :
    ∃ e, exMapM f l = .error e := by
  induction l with
  | nil => cases hx
  | cons a rest ih =>
    rcases List.mem_cons.mp hx with heq | hrest
    · subst heq
      cases hf : f x with
      | error e => exact ⟨e, by rw [exMapM, hf]; rfl⟩
      | ok y => exact absurd hf (he y)
    · cases hf : f a with
      | error e => exact ⟨e, by rw [exMapM, hf]; rfl⟩
      | ok y =>
        obtain ⟨e, hrec⟩ := ih hrest
        exact ⟨e, by rw [exMapM, hf, hrec]; rfl⟩

theorem exFoldl_error_of_mem {σ α : Type} {f : σ → α → Except String σ}
    {l : List α} {x : α} (hx : x ∈ l)
    (he : ∀ s, ∃ e, f s x = .error e) :
    ∀ init, ∃ e, exFoldl f init l = .error e := by
  induction l with
  | nil => cases hx
  | cons a rest ih =>
    intro init
    rcases List.mem_cons.mp hx with heq | hrest
    · subst heq
      obtain ⟨e, hf⟩ := he init
      exact ⟨e, by rw [exFoldl, hf]; rfl⟩
    · cases hf : f init a with
      | error e => exact ⟨e, by rw [exFoldl, hf]; rfl⟩
      | ok s =>
        obtain ⟨e, hrec⟩ := ih hrest s
        exact ⟨e, by rw [exFoldl, hf]; exact hrec⟩

theorem forall₂_mem_left {α β : Type} {R : α → β → Prop} {l : List α}
    {ys : List β} (h : List.Forall₂ R l ys) {x : α} (hx : x ∈ l) :
    ∃ y ∈ ys, R x y := by
  induction h with
  | nil => cases hx
  | cons hr hrest ih =>
    rcases List.mem_cons.mp hx with heq | hmem
    · subst heq
      exact ⟨_, List.mem_cons_self _ _, hr⟩
    · obtain ⟨y, hy, hry⟩ := ih hmem
      exact ⟨y, List.mem_cons_of_mem _ hy, hry⟩

theorem forall₂_map_eq {α β : Type} {R : α → β → Prop} {l : List α}
    {ys : List β} (h : List.Forall₂ R l ys) {γ : Type} (g : α → γ) (g' : β → γ)
    (hg : ∀ x y, R x y → g x = g' y) : l.map g = ys.map g' := by
  induction h with
  | nil => rfl
  | cons hr hrest ih =>
    simp only [List.map_cons, ih]
    rw [hg _ _ hr]

/-- Number of entries of an association list carrying the key `k`. -/
def keyCount {α : Type} (l : List (String × α)) (k : String) : Nat :=
  (l.map Prod.fst).count k

theorem keyCount_append {α : Type} (l₁ l₂ : List (String × α)) (k : String) :
    keyCount (l₁ ++ l₂) k = keyCount l₁ k + keyCount l₂ k := by
  unfold keyCount
  rw [List.map_append, List.count_append]

theorem keyCount_flatten {α : Type} (ls : List (List (String × α)))
    (k : String) :
    keyCount ls.flatten k = (ls.map (fun l => keyCount l k)).sum := by
  induction ls with
  | nil => rfl
  | cons l rest ih =>
    rw [List.flatten_cons, keyCount_append, ih, List.map_cons, List.sum_cons]

/-! ### Where a task is listed in a config, and how often (per format) -/

/-- Format 1.0: `task` is listed under docker image `image` whose data
carries `docker_tag = tag`, `docker_registry = reg` and (optionally)
`docker_digest = digest`. -/
def v1Listed (dockers : List (String × J)) (task image : String)
    (tag reg : J) (digest : Option J) : Prop :=
  ∃ dd, alookup dockers image = some (J.obj dd) ∧
    (∃ ts, alookup dd "tasks" = some (J.arr ts) ∧ J.str task ∈ ts) ∧
    alookup dd "docker_tag" = some tag ∧
    alookup dd "docker_registry" = some reg ∧
    alookup dd "docker_digest" = digest

/-- Format 1.0: occurrences of `task` in the tasks list of one image. -/
def v1ImageCount (dockers : List (String × J)) (task image : String) : Nat :=
  match alookup dockers image with
  | some (J.obj dd) =>
    (match alookup dd "tasks" with
     | some (J.arr ts) => strCount ts task
     | _ => 0)
  | _ => 0

/-- Format 1.0: total occurrences of `task` across the config. -/
def v1Count (dockers : List (String × J)) (task : String) : Nat :=
  ((dockers.map Prod.fst).map (v1ImageCount dockers task)).sum

/-- Formats 2.0/3.0, inner level: `task` is listed under tag `tagKey` of
one docker's data, with that tag entry carrying `docker_registry = reg`
and (optionally) `docker_digest = digest`. -/
def innerListed (idd : List (String × J)) (task tagKey : String)
    (reg : J) (digest : Option J) : Prop :=
  ∃ td, alookup idd tagKey = some (J.obj td) ∧
    (∃ ts, alookup td "tasks" = some (J.arr ts) ∧ J.str task ∈ ts) ∧
    alookup td "docker_registry" = some reg ∧
    alookup td "docker_digest" = digest

/-- Formats 2.0/3.0: occurrences of `task` under one tag of a docker. -/
def innerTagCount (idd : List (String × J)) (task tag : String) : Nat :=
  match alookup idd tag with
  | some (J.obj td) =>
    (match alookup td "tasks" with
     | some (J.arr ts) => strCount ts task
     | _ => 0)
  | _ => 0

/-- Formats 2.0/3.0: occurrences of `task` across all tags of a docker. -/
def innerCount (idd : List (String × J)) (task : String) : Nat :=
  ((idd.map Prod.fst).map (innerTagCount idd task)).sum

/-- Format 2.0: `task` is listed under `image` at tag `tagKey`. -/
def v2Listed (dockers : List (String × J)) (task image tagKey : String)
    (reg : J) (digest : Option J) : Prop :=
  ∃ dd, alookup dockers image = some (J.obj dd) ∧
    innerListed dd task tagKey reg digest

/-- Format 2.0: occurrences of `task` under one image of the config. -/
def v2ImageCount (dockers : List (String × J)) (task image : String) : Nat :=
  match alookup dockers image with
  | some (J.obj dd) => innerCount dd task
  | _ => 0

/-- Format 2.0: total occurrences of `task` across the config. -/
def v2Count (dockers : List (String × J)) (task : String) : Nat :=
  ((dockers.map Prod.fst).map (v2ImageCount dockers task)).sum

/-- Format 3.0: `task` is listed in a group's data under `image` at tag
`tagKey`. -/
def v3GroupListed (groupData : J) (task image tagKey : String)
    (reg : J) (digest : Option J) : Prop :=
  ∃ dockers, getItem groupData "dockers" = .ok (J.obj dockers) ∧
    ∃ idd, (image, J.obj idd) ∈ dockers ∧
      innerListed idd task tagKey reg digest

/-- Format 3.0: total occurrences of `task` across one group's data. -/
def v3GroupCount (groupData : J) (task : String) : Nat :=
  match getItem groupData "dockers" with
  | .ok (J.obj dockers) =>
    (dockers.map (fun kv =>
      match kv.2 with
      | J.obj idd => innerCount idd task
      | _ => 0)).sum
  | _ => 0

/-! ### Unfolding lemmas for the parser -/

theorem ok_bind {α β : Type} (a : α) (f : α → Except String β) :
    (Except.ok a >>= f) = f a := rfl

theorem error_bind {α β : Type} (e : String) (f : α → Except String β) :
    ((Except.error e : Except String α) >>= f) = .error e := rfl

theorem pure_eq_ok {α : Type} (a : α) : (pure a : Except String α) = .ok a := rfl

theorem throw_eq_error {α : Type} (e : String) :
    (throw e : Except String α) = .error e := rfl

theorem mem_of_forall₂_mapM {α β : Type} {f : α → Except String β}
    {ts : List α} {es : List β}
    (h : List.Forall₂ (fun x y => f x = .ok y) ts es) {x : α} {y : β}
    (hx : x ∈ ts) (hy : f x = .ok y) : y ∈ es := by
  obtain ⟨y', hy', hr⟩ := forall₂_mem_left h hx
  rw [hy] at hr
  cases hr
  exact hy'

theorem keyCount_of_taskMapM {f : J → Except String (String × Task)}
    (hf : ∀ tj y, f tj = .ok y → ∃ s, tj = J.str s ∧ y.1 = s)
    {ts : List J} {es : List (String × Task)}
    (h : List.Forall₂ (fun x y => f x = .ok y) ts es) (k : String) :
    keyCount es k = strCount ts k := by
  induction h with
  | nil => rfl
  | @cons tj y ts' es' hr hrest ih =>
    obtain ⟨s, htj, hkey⟩ := hf _ _ hr
    subst htj
    show keyCount (y :: es') k = strCount (J.str s :: ts') k
    unfold keyCount strCount at ih ⊢
    rw [List.map_cons, List.count_cons, List.countP_cons, ih, hkey]

theorem getItem_some {fields : List (String × J)} {k : String} {v : J}
    (h : alookup fields k = some v) : getItem (J.obj fields) k = .ok v := by
  show (match alookup fields k with
    | some v => Except.ok v
    | none => Except.error ("KeyError: " ++ k)) = Except.ok v
  rw [h]

theorem getItem_none {fields : List (String × J)} {k : String}
    (h : alookup fields k = none) :
    getItem (J.obj fields) k = .error ("KeyError: " ++ k) := by
  show (match alookup fields k with
    | some v => Except.ok v
    | none => Except.error ("KeyError: " ++ k)) = _
  rw [h]

theorem tagTaskEntry_ok_shape {org : Option String} {image tag : String}
    {tagData : J} {tj : J} {y : String × Task}
    (h : tagTaskEntry org image tag tagData tj = .ok y) :
    ∃ s, tj = J.str s ∧ y.1 = s := by
  cases tj with
  | str s =>
    refine ⟨s, rfl, ?_⟩
    simp only [tagTaskEntry] at h
    cases hreg : getItem tagData "docker_registry" with
    | error e => rw [hreg, error_bind] at h; cases h
    | ok reg =>
      rw [hreg, ok_bind] at h
      cases h
      rfl
  | null => cases h
  | bool b => cases h
  | num q => cases h
  | arr l => cases h
  | obj l => cases h

theorem tagTaskEntry_eval (org : Option String) (image tag : String)
    {td : List (String × J)} {reg : J}
    (hreg : alookup td "docker_registry" = some reg) (task : String) :
    tagTaskEntry org image tag (J.obj td) (J.str task) =
      .ok (task, Task.make org (J.str task) (some (J.str image))
        (some (J.str tag)) (some reg) (alookup td "docker_digest")) := by
  simp only [tagTaskEntry]
  rw [getItem_some hreg, ok_bind]
  rfl

theorem tagEntries_ok_destruct {org : Option String} {image : String}
    {dd : List (String × J)} {tag : String} {es : List (String × Task)}
    (h : tagEntries org image (J.obj dd) tag = .ok es) :
    ∃ td ts, alookup dd tag = some (J.obj td) ∧
      alookup td "tasks" = some (J.arr ts) ∧
      exMapM (tagTaskEntry org image tag (J.obj td)) ts = .ok es := by
  unfold tagEntries at h
  cases hl : alookup dd tag with
  | none =>
    rw [getItem_none hl, error_bind] at h
    cases h
  | some tagData =>
    rw [getItem_some hl, ok_bind] at h
    cases tagData with
    | obj td =>
      cases hts : alookup td "tasks" with
      | none => rw [getItem_none hts, error_bind] at h; cases h
      | some tasksJ =>
        rw [getItem_some hts, ok_bind] at h
        cases tasksJ with
        | arr ts => exact ⟨td, ts, rfl, hts, h⟩
        | null => cases h
        | bool b => cases h
        | num q => cases h
        | str s => cases h
        | obj l => cases h
    | null => cases h
    | bool b => cases h
    | num q => cases h
    | str s => cases h
    | arr l => cases h

theorem tagEntries_keyCount {org : Option String} {image : String}
    {dd : List (String × J)} {tag : String} {es : List (String × Task)}
    (h : tagEntries org image (J.obj dd) tag = .ok es) (k : String) :
    keyCount es k = innerTagCount dd k tag := by
  obtain ⟨td, ts, htd, hts, hmap⟩ := tagEntries_ok_destruct h
  have hfa := (exMapM_ok_iff _ _ _).mp hmap
  have hcnt := keyCount_of_taskMapM (fun tj y hy => tagTaskEntry_ok_shape hy)
    hfa k
  rw [hcnt]
  simp only [innerTagCount, htd, hts]

theorem tagEntries_mem {org : Option String} {image : String}
    {dd : List (String × J)} {tag : String} {es : List (String × Task)}
    {td : List (String × J)} {ts : List J} {task : String} {reg : J}
    {digest : Option J}
    (h : tagEntries org image (J.obj dd) tag = .ok es)
    (htd : alookup dd tag = some (J.obj td))
    (hts : alookup td "tasks" = some (J.arr ts))
    (htask : J.str task ∈ ts)
    (hreg : alookup td "docker_registry" = some reg)
    (hdig : alookup td "docker_digest" = digest) :
    (task, Task.make org (J.str task) (some (J.str image))
      (some (J.str tag)) (some reg) digest) ∈ es := by
  obtain ⟨td', ts', htd', hts', hmap⟩ := tagEntries_ok_destruct h
  rw [htd'] at htd
  cases htd
  rw [hts'] at hts
  cases hts
  have hfa := (exMapM_ok_iff _ _ _).mp hmap
  have heval := tagTaskEntry_eval org image tag hreg task
  rw [hdig] at heval
  exact mem_of_forall₂_mapM hfa htask heval

theorem v2ImageEntries_ok_destruct {org : Option String}
    {dockers : List (String × J)} {image : String} {es : List (String × Task)}
    (h : v2ImageEntries org (J.obj dockers) image = .ok es) :
    ∃ dd lists, alookup dockers image = some (J.obj dd) ∧
      exMapM (tagEntries org image (J.obj dd)) (dd.map Prod.fst) = .ok lists ∧
      es = lists.flatten := by
  unfold v2ImageEntries at h
  cases hl : alookup dockers image with
  | none => rw [getItem_none hl, error_bind] at h; cases h
  | some dockerData =>
    rw [getItem_some hl, ok_bind] at h
    cases dockerData with
    | obj dd =>
      replace h : (do
        let lists ← exMapM (tagEntries org image (J.obj dd)) (dd.map Prod.fst)
        pure lists.flatten : Except String (List (String × Task))) =
          Except.ok es := h
      cases hex : exMapM (tagEntries org image (J.obj dd)) (dd.map Prod.fst) with
      | error e =>
        rw [hex] at h
        cases h
      | ok lists =>
        rw [hex] at h
        replace h : Except.ok lists.flatten = Except.ok es := h
        cases h
        exact ⟨dd, lists, rfl, hex, rfl⟩
    | null => cases h
    | bool b => cases h
    | num q => cases h
    | str s => cases h
    | arr l => cases h

theorem v2ImageEntries_keyCount {org : Option String}
    {dockers : List (String × J)} {image : String} {es : List (String × Task)}
    (h : v2ImageEntries org (J.obj dockers) image = .ok es) (k : String) :
    keyCount es k = v2ImageCount dockers k image := by
  obtain ⟨dd, lists, hdd, hex, hes⟩ := v2ImageEntries_ok_destruct h
  subst hes
  rw [keyCount_flatten]
  have hfa := (exMapM_ok_iff _ _ _).mp hex
  have hmaps := forall₂_map_eq hfa (fun tag => innerTagCount dd k tag)
    (fun l => keyCount l k)
    (fun tag l hl => (tagEntries_keyCount hl k).symm)
  rw [← hmaps]
  unfold v2ImageCount
  rw [hdd]
  rfl

theorem v2ImageEntries_mem {org : Option String}
    {dockers : List (String × J)} {image : String} {es : List (String × Task)}
    {dd : List (String × J)} {task tagKey : String} {reg : J}
    {digest : Option J}
    (h : v2ImageEntries org (J.obj dockers) image = .ok es)
    (hdd : alookup dockers image = some (J.obj dd))
    (hinner : innerListed dd task tagKey reg digest) :
    (task, Task.make org (J.str task) (some (J.str image))
      (some (J.str tagKey)) (some reg) digest) ∈ es := by
  obtain ⟨dd2, lists, hdd2, hex, hes⟩ := v2ImageEntries_ok_destruct h
  rw [hdd] at hdd2
  cases hdd2
  subst hes
  obtain ⟨td, htd, ⟨ts, hts, htask⟩, hreg, hdig⟩ := hinner
  have hkey : tagKey ∈ dd.map Prod.fst := mem_keys_of_alookup_eq_some htd
  have hfa := (exMapM_ok_iff _ _ _).mp hex
  obtain ⟨esTag, hesTag, hok⟩ := forall₂_mem_left hfa hkey
  have hmem := tagEntries_mem hok htd hts htask hreg hdig
  exact List.mem_flatten.mpr ⟨esTag, hesTag, hmem⟩

theorem v1TaskEntry_ok_shape {org : Option String} {image : String}
    {dockerData : J} {tj : J} {y : String × Task}
    (h : v1TaskEntry org image dockerData tj = .ok y) :
    ∃ s, tj = J.str s ∧ y.1 = s := by
  cases tj with
  | str s =>
    refine ⟨s, rfl, ?_⟩
    simp only [v1TaskEntry] at h
    cases htag : getItem dockerData "docker_tag" with
    | error e => rw [htag, error_bind] at h; cases h
    | ok tag =>
      rw [htag, ok_bind] at h
      cases hreg : getItem dockerData "docker_registry" with
      | error e => rw [hreg, error_bind] at h; cases h
      | ok reg =>
        rw [hreg, ok_bind] at h
        cases h
        rfl
  | null => cases h
  | bool b => cases h
  | num q => cases h
  | arr l => cases h
  | obj l => cases h

theorem v1TaskEntry_eval (org : Option String) (image : String)
    {dd : List (String × J)} {tag reg : J}
    (htag : alookup dd "docker_tag" = some tag)
    (hreg : alookup dd "docker_registry" = some reg) (task : String) :
    v1TaskEntry org image (J.obj dd) (J.str task) =
      .ok (task, Task.make org (J.str task) (some (J.str image))
        (some tag) (some reg) (alookup dd "docker_digest")) := by
  simp only [v1TaskEntry]
  rw [getItem_some htag, ok_bind, getItem_some hreg, ok_bind]
  rfl

theorem v1ImageEntries_ok_destruct {org : Option String}
    {dockers : List (String × J)} {image : String} {es : List (String × Task)}
    (h : v1ImageEntries org (J.obj dockers) image = .ok es) :
    ∃ dd ts, alookup dockers image = some (J.obj dd) ∧
      alookup dd "tasks" = some (J.arr ts) ∧
      exMapM (v1TaskEntry org image (J.obj dd)) ts = .ok es := by
  unfold v1ImageEntries at h
  cases hl : alookup dockers image with
  | none => rw [getItem_none hl, error_bind] at h; cases h
  | some dockerData =>
    rw [getItem_some hl, ok_bind] at h
    cases dockerData with
    | obj dd =>
      simp only [] at h
      cases hts : alookup dd "tasks" with
      | none => rw [hts] at h; cases h
      | some tasksJ =>
        rw [hts] at h
        simp only [] at h
        cases tasksJ with
        | arr ts => exact ⟨dd, ts, rfl, hts, h⟩
        | null => cases h
        | bool b => cases h
        | num q => cases h
        | str s => cases h
        | obj l => cases h
    | null => cases h
    | bool b => cases h
    | num q => cases h
    | str s => cases h
    | arr l => cases h

theorem v1ImageEntries_keyCount {org : Option String}
    {dockers : List (String × J)} {image : String} {es : List (String × Task)}
    (h : v1ImageEntries org (J.obj dockers) image = .ok es) (k : String) :
    keyCount es k = v1ImageCount dockers k image := by
  obtain ⟨dd, ts, hdd, hts, hmap⟩ := v1ImageEntries_ok_destruct h
  have hfa := (exMapM_ok_iff _ _ _).mp hmap
  have hcnt := keyCount_of_taskMapM (fun tj y hy => v1TaskEntry_ok_shape hy)
    hfa k
  rw [hcnt]
  simp only [v1ImageCount, hdd, hts]

theorem v1ImageEntries_mem {org : Option String}
    {dockers : List (String × J)} {image : String} {es : List (String × Task)}
    {dd : List (String × J)} {ts : List J} {task : String} {tag reg : J}
    {digest : Option J}
    (h : v1ImageEntries org (J.obj dockers) image = .ok es)
    (hdd : alookup dockers image = some (J.obj dd))
    (hts : alookup dd "tasks" = some (J.arr ts))
    (htask : J.str task ∈ ts)
    (htag : alookup dd "docker_tag" = some tag)
    (hreg : alookup dd "docker_registry" = some reg)
    (hdig : alookup dd "docker_digest" = digest) :
    (task, Task.make org (J.str task) (some (J.str image))
      (some tag) (some reg) digest) ∈ es := by
  obtain ⟨dd2, ts2, hdd2, hts2, hmap⟩ := v1ImageEntries_ok_destruct h
  rw [hdd] at hdd2
  cases hdd2
  rw [hts] at hts2
  cases hts2
  have hfa := (exMapM_ok_iff _ _ _).mp hmap
  have heval := v1TaskEntry_eval org image htag hreg task
  rw [hdig] at heval
  exact mem_of_forall₂_mapM hfa htask heval

theorem v3ImageEntries_ok_destruct {org : Option String}
    {image : String} {imageData : J} {es : List (String × Task)}
    (h : v3ImageEntries org (image, imageData) = .ok es) :
    ∃ idd lists, imageData = J.obj idd ∧
      exMapM (tagEntries org image (J.obj idd)) (idd.map Prod.fst) =
        .ok lists ∧
      es = lists.flatten := by
  unfold v3ImageEntries at h
  cases imageData with
  | obj idd =>
    simp only [] at h
    cases hex : exMapM (tagEntries org image (J.obj idd))
        (idd.map Prod.fst) with
    | error e => rw [hex] at h; cases h
    | ok lists =>
      rw [hex] at h
      replace h : Except.ok lists.flatten = Except.ok es := h
      cases h
      exact ⟨idd, lists, rfl, hex, rfl⟩
  | null => cases h
  | bool b => cases h
  | num q => cases h
  | str s => cases h
  | arr l => cases h

theorem v3ImageEntries_keyCount {org : Option String}
    {image : String} {idd : List (String × J)} {es : List (String × Task)}
    (h : v3ImageEntries org (image, J.obj idd) = .ok es) (k : String) :
    keyCount es k = innerCount idd k := by
  obtain ⟨idd2, lists, heq, hex, hes⟩ := v3ImageEntries_ok_destruct h
  cases heq
  subst hes
  rw [keyCount_flatten]
  have hfa := (exMapM_ok_iff _ _ _).mp hex
  have hmaps := forall₂_map_eq hfa (fun tag => innerTagCount idd k tag)
    (fun l => keyCount l k)
    (fun tag l hl => (tagEntries_keyCount hl k).symm)
  rw [← hmaps]
  rfl

theorem v3ImageEntries_mem {org : Option String}
    {image : String} {idd : List (String × J)} {es : List (String × Task)}
    {task tagKey : String} {reg : J} {digest : Option J}
    (h : v3ImageEntries org (image, J.obj idd) = .ok es)
    (hinner : innerListed idd task tagKey reg digest) :
    (task, Task.make org (J.str task) (some (J.str image))
      (some (J.str tagKey)) (some reg) digest) ∈ es := by
  obtain ⟨idd2, lists, heq, hex, hes⟩ := v3ImageEntries_ok_destruct h
  cases heq
  subst hes
  obtain ⟨td, htd, ⟨ts, hts, htask⟩, hreg, hdig⟩ := hinner
  have hkey : tagKey ∈ idd.map Prod.fst := mem_keys_of_alookup_eq_some htd
  have hfa := (exMapM_ok_iff _ _ _).mp hex
  obtain ⟨esTag, hesTag, hok⟩ := forall₂_mem_left hfa hkey
  have hmem := tagEntries_mem hok htd hts htask hreg hdig
  exact List.mem_flatten.mpr ⟨esTag, hesTag, hmem⟩

theorem v3GroupEntries_ok_destruct {org : Option String} {groupData : J}
    {entries : List (String × Task)} {images : List String}
    (h : v3GroupEntries org groupData = .ok (entries, images)) :
    ∃ dockers lists, getItem groupData "dockers" = .ok (J.obj dockers) ∧
      exMapM (v3ImageEntries org) dockers = .ok lists ∧
      entries = lists.flatten ∧ images = dockers.map Prod.fst := by
  unfold v3GroupEntries at h
  cases hdk : getItem groupData "dockers" with
  | error e => rw [hdk, error_bind] at h; cases h
  | ok dockersJ =>
    rw [hdk, ok_bind] at h
    cases dockersJ with
    | obj dockers =>
      simp only [] at h
      cases hex : exMapM (v3ImageEntries org) dockers with
      | error e => rw [hex] at h; cases h
      | ok lists =>
        rw [hex] at h
        replace h : Except.ok (lists.flatten, dockers.map Prod.fst) =
          Except.ok (entries, images) := h
        cases h
        exact ⟨dockers, lists, rfl, hex, rfl, rfl⟩
    | null => cases h
    | bool b => cases h
    | num q => cases h
    | str s => cases h
    | arr l => cases h

theorem v3GroupEntries_keyCount {org : Option String} {groupData : J}
    {entries : List (String × Task)} {images : List String}
    (h : v3GroupEntries org groupData = .ok (entries, images)) (k : String) :
    keyCount entries k = v3GroupCount groupData k := by
  obtain ⟨dockers, lists, hdk, hex, hes, _⟩ := v3GroupEntries_ok_destruct h
  subst hes
  rw [keyCount_flatten]
  have hfa := (exMapM_ok_iff _ _ _).mp hex
  have hone : ∀ (kv : String × J) (es : List (String × Task)),
      v3ImageEntries org kv = .ok es →
      keyCount es k = (match kv.2 with
        | J.obj idd => innerCount idd k
        | _ => 0) := by
    intro kv es hok
    obtain ⟨idd, lists2, heq, _, _⟩ := v3ImageEntries_ok_destruct
      (by rw [show ((kv.1, kv.2) : String × J) = kv from rfl]; exact hok)
    have hok2 : v3ImageEntries org (kv.1, J.obj idd) = .ok es := by
      rw [show ((kv.1, J.obj idd) : String × J) = kv from by rw [← heq]]
      exact hok
    rw [heq]
    exact v3ImageEntries_keyCount hok2 k
  have hmaps := forall₂_map_eq hfa
    (fun kv => match kv.2 with
      | J.obj idd => innerCount idd k
      | _ => 0)
    (fun l => keyCount l k)
    (fun kv l hl => (hone kv l hl).symm)
  rw [← hmaps]
  simp only [v3GroupCount, hdk]

theorem v3GroupEntries_mem {org : Option String} {groupData : J}
    {entries : List (String × Task)} {images : List String}
    {task image tagKey : String} {reg : J} {digest : Option J}
    (h : v3GroupEntries org groupData = .ok (entries, images))
    (hlisted : v3GroupListed groupData task image tagKey reg digest) :
    (task, Task.make org (J.str task) (some (J.str image))
      (some (J.str tagKey)) (some reg) digest) ∈ entries := by
  obtain ⟨dockers, lists, hdk, hex, hes, _⟩ := v3GroupEntries_ok_destruct h
  subst hes
  obtain ⟨dockers2, hdk2, idd, hpair, hinner⟩ := hlisted
  rw [hdk] at hdk2
  cases hdk2
  have hfa := (exMapM_ok_iff _ _ _).mp hex
  obtain ⟨es, hesmem, hok⟩ := forall₂_mem_left hfa hpair
  have hmem := v3ImageEntries_mem hok hinner
  exact List.mem_flatten.mpr ⟨es, hesmem, hmem⟩

theorem v3GroupMapEntry_ok_destruct {org : Option String} {tg : String}
    {groupData : J} {y : (String × List (String × Task)) × List String}
    (h : v3GroupMapEntry org (tg, groupData) = .ok y) :
    ∃ entries images, v3GroupEntries org groupData = .ok (entries, images) ∧
      y = ((tg, buildMap entries), images) := by
  unfold v3GroupMapEntry at h
  simp only [] at h
  cases hge : v3GroupEntries org groupData with
  | error e => rw [hge] at h; cases h
  | ok p =>
    rw [hge] at h
    obtain ⟨entries, images⟩ := p
    replace h : Except.ok ((tg, buildMap entries), images) = Except.ok y := h
    cases h
    exact ⟨entries, images, rfl, rfl⟩

theorem bool_not_eq_true {b : Bool} (h : b = false) : ¬ b = true := by
  rw [h]
  exact Bool.false_ne_true

theorem parse_v1_destruct {org : Option String} {cfg : List (String × J)}
    {fv : J} {tm : List (String × List (String × Task))} {imgs : List String}
    (hfv : alookup cfg "format_version" = some fv)
    (h1 : pyEqFloat fv 1 = true)
    (h : parse_launcher_config org (J.obj cfg) = .ok (tm, imgs)) :
    ∃ dockers lists, alookup cfg "dockers" = some (J.obj dockers) ∧
      exMapM (v1ImageEntries org (J.obj dockers)) (dockers.map Prod.fst) =
        .ok lists ∧
      tm = [("container_actions", buildMap lists.flatten)] := by
  unfold parse_launcher_config at h
  simp only [] at h
  rw [hfv] at h
  simp only [] at h
  rw [if_pos h1] at h
  cases hdk : alookup cfg "dockers" with
  | none => rw [getItem_none hdk, error_bind] at h; cases h
  | some dockersJ =>
    rw [getItem_some hdk, ok_bind] at h
    cases dockersJ with
    | obj dockers =>
      simp only [] at h
      cases hex : exMapM (v1ImageEntries org (J.obj dockers))
          (dockers.map Prod.fst) with
      | error e => rw [hex] at h; cases h
      | ok lists =>
        rw [hex] at h
        replace h : Except.ok ([("container_actions", buildMap lists.flatten)],
          (dockers.map Prod.fst).foldl setAdd []) = Except.ok (tm, imgs) := h
        cases h
        exact ⟨dockers, lists, rfl, hex, rfl⟩
    | null => cases h
    | bool b => cases h
    | num q => cases h
    | str s => cases h
    | arr l => cases h

theorem parse_v2_destruct {org : Option String} {cfg : List (String × J)}
    {fv : J} {tm : List (String × List (String × Task))} {imgs : List String}
    (hfv : alookup cfg "format_version" = some fv)
    (h1 : pyEqFloat fv 1 = false)
    (h2 : pyEqFloat fv 2 = true)
    (h : parse_launcher_config org (J.obj cfg) = .ok (tm, imgs)) :
    ∃ dockers lists, alookup cfg "dockers" = some (J.obj dockers) ∧
      exMapM (v2ImageEntries org (J.obj dockers)) (dockers.map Prod.fst) =
        .ok lists ∧
      tm = [("container_actions", buildMap lists.flatten)] := by
  unfold parse_launcher_config at h
  simp only [] at h
  rw [hfv] at h
  simp only [] at h
  rw [if_neg (bool_not_eq_true h1), if_pos h2] at h
  cases hdk : alookup cfg "dockers" with
  | none => rw [getItem_none hdk, error_bind] at h; cases h
  | some dockersJ =>
    rw [getItem_some hdk, ok_bind] at h
    cases dockersJ with
    | obj dockers =>
      simp only [] at h
      cases hex : exMapM (v2ImageEntries org (J.obj dockers))
          (dockers.map Prod.fst) with
      | error e => rw [hex] at h; cases h
      | ok lists =>
        rw [hex] at h
        replace h : Except.ok ([("container_actions", buildMap lists.flatten)],
          (dockers.map Prod.fst).foldl setAdd []) = Except.ok (tm, imgs) := h
        cases h
        exact ⟨dockers, lists, rfl, hex, rfl⟩
    | null => cases h
    | bool b => cases h
    | num q => cases h
    | str s => cases h
    | arr l => cases h

theorem parse_v3_destruct {org : Option String} {cfg : List (String × J)}
    {fv : J} {tm : List (String × List (String × Task))} {imgs : List String}
    (hfv : alookup cfg "format_version" = some fv)
    (h1 : pyEqFloat fv 1 = false)
    (h2 : pyEqFloat fv 2 = false)
    (h3 : pyEqFloat fv 3 = true)
    (h : parse_launcher_config org (J.obj cfg) = .ok (tm, imgs)) :
    ∃ tgs groups, alookup cfg "task_group" = some (J.obj tgs) ∧
      exMapM (v3GroupMapEntry org) tgs = .ok groups ∧
      tm = buildMap (groups.map Prod.fst) := by
  unfold parse_launcher_config at h
  simp only [] at h
  rw [hfv] at h
  simp only [] at h
  rw [if_neg (bool_not_eq_true h1), if_neg (bool_not_eq_true h2),
    if_pos h3] at h
  cases htg : alookup cfg "task_group" with
  | none => rw [getItem_none htg, error_bind] at h; cases h
  | some tgJ =>
    rw [getItem_some htg, ok_bind] at h
    cases tgJ with
    | obj tgs =>
      simp only [] at h
      cases hex : exMapM (v3GroupMapEntry org) tgs with
      | error e => rw [hex] at h; cases h
      | ok groups =>
        rw [hex] at h
        replace h : Except.ok (buildMap (groups.map Prod.fst),
          (groups.map Prod.snd).flatten.foldl setAdd []) =
            Except.ok (tm, imgs) := h
        cases h
        exact ⟨tgs, groups, rfl, hex, rfl⟩
    | null => cases h
    | bool b => cases h
    | num q => cases h
    | str s => cases h
    | arr l => cases h

theorem alookup_buildMap_of_count_one {α : Type}
    {entries : List (String × α)} {k : String} {v : α}
    (hmem : (k, v) ∈ entries) (hcount : keyCount entries k = 1) :
    alookup (buildMap entries) k = some v := by
  rw [alookup_buildMap]
  apply alookup_eq_some_of_count_one (List.mem_reverse.mpr hmem)
  show (entries.reverse.map Prod.fst).count k = 1
  rw [List.map_reverse, List.count_reverse]
  exact hcount

theorem alookup_of_forall₂ {α β : Type} (Q : α → β → Prop)
    {l : List (String × α)} {ps : List (String × β)}
    (h : List.Forall₂ (fun kv p => p.1 = kv.1 ∧ Q kv.2 p.2) l ps)
    {k : String} {v : α} (hl : alookup l k = some v) :
    ∃ w, alookup ps k = some w ∧ Q v w := by
  induction h with
  | nil => cases hl
  | @cons kv p rest ps' hr hrest ih =>
    obtain ⟨hk, hq⟩ := hr
    obtain ⟨a, b⟩ := kv
    by_cases ha : a = k
    · subst ha
      have hv : b = v := by simpa [alookup] using hl
      subst hv
      refine ⟨p.2, ?_, hq⟩
      obtain ⟨p1, p2⟩ := p
      simp only [alookup]
      simp only at hk
      rw [if_pos hk]
    · simp only [alookup, if_neg ha] at hl
      obtain ⟨w, hw, hq2⟩ := ih hl
      refine ⟨w, ?_, hq2⟩
      obtain ⟨p1, p2⟩ := p
      simp only at hk
      subst hk
      simp only [alookup, if_neg ha]
      exact hw

theorem v1_entries_keyCount {org : Option String}
    {dockers : List (String × J)} {lists : List (List (String × Task))}
    (hex : exMapM (v1ImageEntries org (J.obj dockers)) (dockers.map Prod.fst) =
      .ok lists) (k : String) :
    keyCount lists.flatten k = v1Count dockers k := by
  rw [keyCount_flatten]
  have hfa := (exMapM_ok_iff _ _ _).mp hex
  have hmaps := forall₂_map_eq hfa (v1ImageCount dockers k)
    (fun l => keyCount l k)
    (fun image l hl => (v1ImageEntries_keyCount hl k).symm)
  rw [← hmaps]
  rfl

theorem v3_groups_forall₂ {org : Option String} {tgs : List (String × J)}
    {groups : List ((String × List (String × Task)) × List String)}
    (hex : exMapM (v3GroupMapEntry org) tgs = .ok groups) :
    List.Forall₂ (fun (kv : String × J)
      (p : String × List (String × Task)) => p.1 = kv.1 ∧
        (∃ entries images, v3GroupEntries org kv.2 = .ok (entries, images) ∧
          p.2 = buildMap entries)) tgs (groups.map Prod.fst) := by
  have hfa := (exMapM_ok_iff _ _ _).mp hex
  rw [List.forall₂_map_right_iff]
  refine List.Forall₂.imp ?_ hfa
  intro kv y hy
  obtain ⟨tg0, gd0⟩ := kv
  obtain ⟨entries, images, hge, hyeq⟩ := v3GroupMapEntry_ok_destruct hy
  subst hyeq
  exact ⟨rfl, entries, images, hge, rfl⟩

theorem v3_tm_keys {org : Option String} {tgs : List (String × J)}
    {groups : List ((String × List (String × Task)) × List String)}
    (hex : exMapM (v3GroupMapEntry org) tgs = .ok groups) :
    (groups.map Prod.fst).map Prod.fst = tgs.map Prod.fst :=
  (forall₂_map_eq (v3_groups_forall₂ hex) Prod.fst Prod.fst
    (fun kv p hp => hp.1.symm)).symm

theorem v2_entries_keyCount {org : Option String}
    {dockers : List (String × J)} {lists : List (List (String × Task))}
    (hex : exMapM (v2ImageEntries org (J.obj dockers)) (dockers.map Prod.fst) =
      .ok lists) (k : String) :
    keyCount lists.flatten k = v2Count dockers k := by
  rw [keyCount_flatten]
  have hfa := (exMapM_ok_iff _ _ _).mp hex
  have hmaps := forall₂_map_eq hfa (v2ImageCount dockers k)
    (fun l => keyCount l k)
    (fun image l hl => (v2ImageEntries_keyCount hl k).symm)
  rw [← hmaps]
  rfl

/-- C1: for every valid configuration of a known schema version, each task
name listed in the config is mapped (in its group, at its name) to a `Task`
whose `docker_image`, `docker_tag` and `docker_registry` are exactly the
image, tag and registry under which that task is listed (1.0: tag/registry
from the image's `docker_tag`/`docker_registry` fields; 2.0/3.0: from the
tag entry containing the task), with the task's `docker_digest` carried
along.  `OVERRIDE_REGISTRY` is unset, and the task name is listed exactly
once in its group, so "the" entry listing it is well defined. -/
theorem parse_launcher_config_selects_listed_task
    (cfg : List (String × J)) (tm : List (String × List (String × Task)))
    (imgs : List String) (fv : J) (group task image : String) (tag reg : J)
    (digest : Option J)
    (hok : parse_launcher_config none (J.obj cfg) = .ok (tm, imgs))
    (hfv : alookup cfg "format_version" = some fv)
    (hv :
      (pyEqFloat fv 1 = true ∧ group = "container_actions" ∧
        ∃ dockers, alookup cfg "dockers" = some (J.obj dockers) ∧
          v1Listed dockers task image tag reg digest ∧
          v1Count dockers task = 1) ∨
      (pyEqFloat fv 1 = false ∧ pyEqFloat fv 2 = true ∧
        group = "container_actions" ∧
        ∃ dockers, alookup cfg "dockers" = some (J.obj dockers) ∧
          (∃ tagKey, tag = J.str tagKey ∧
            v2Listed dockers task image tagKey reg digest) ∧
          v2Count dockers task = 1) ∨
      (pyEqFloat fv 1 = false ∧ pyEqFloat fv 2 = false ∧
        pyEqFloat fv 3 = true ∧
        ∃ tgs, alookup cfg "task_group" = some (J.obj tgs) ∧
          (tgs.map Prod.fst).Nodup ∧
          ∃ groupData, alookup tgs group = some groupData ∧
            (∃ tagKey, tag = J.str tagKey ∧
              v3GroupListed groupData task image tagKey reg digest) ∧
            v3GroupCount groupData task = 1)) :
    ∃ lm, alookup tm group = some lm ∧
      alookup lm task = some
        { name := J.str task
          docker_image := some (J.str image)
          docker_tag := some tag
          docker_registry := some reg
          docker_digest := digest } := by
  rcases hv with ⟨h1, hgrp, dockers, hdk, hlisted, hcount⟩ |
    ⟨h1, h2, hgrp, dockers, hdk, ⟨tagKey, htagkey, hlisted⟩, hcount⟩ |
    ⟨h1, h2, h3, tgs, htg, hnd, groupData, hgd, ⟨tagKey, htagkey, hlisted⟩,
      hcount⟩
  · obtain ⟨dockers2, lists, hdk2, hex, htm⟩ := parse_v1_destruct hfv h1 hok
    rw [hdk] at hdk2
    cases hdk2
    subst htm
    subst hgrp
    refine ⟨buildMap lists.flatten, by simp [alookup], ?_⟩
    obtain ⟨dd, hdd, ⟨ts, hts, htask⟩, htag, hreg, hdig⟩ := hlisted
    have himg : image ∈ dockers.map Prod.fst := mem_keys_of_alookup_eq_some hdd
    have hfa := (exMapM_ok_iff _ _ _).mp hex
    obtain ⟨es, hesmem, hok1⟩ := forall₂_mem_left hfa himg
    have hmem := v1ImageEntries_mem hok1 hdd hts htask htag hreg hdig
    have hmem2 : (task, Task.make none (J.str task) (some (J.str image))
        (some tag) (some reg) digest) ∈ lists.flatten :=
      List.mem_flatten.mpr ⟨es, hesmem, hmem⟩
    have hcnt : keyCount lists.flatten task = 1 := by
      rw [v1_entries_keyCount hex]
      exact hcount
    exact alookup_buildMap_of_count_one hmem2 hcnt
  · obtain ⟨dockers2, lists, hdk2, hex, htm⟩ := parse_v2_destruct hfv h1 h2 hok
    rw [hdk] at hdk2
    cases hdk2
    subst htm
    subst hgrp
    subst htagkey
    refine ⟨buildMap lists.flatten, by simp [alookup], ?_⟩
    obtain ⟨dd, hdd, hinner⟩ := hlisted
    have himg : image ∈ dockers.map Prod.fst := mem_keys_of_alookup_eq_some hdd
    have hfa := (exMapM_ok_iff _ _ _).mp hex
    obtain ⟨es, hesmem, hok1⟩ := forall₂_mem_left hfa himg
    have hmem := v2ImageEntries_mem hok1 hdd hinner
    have hmem2 : (task, Task.make none (J.str task) (some (J.str image))
        (some (J.str tagKey)) (some reg) digest) ∈ lists.flatten :=
      List.mem_flatten.mpr ⟨es, hesmem, hmem⟩
    have hcnt : keyCount lists.flatten task = 1 := by
      rw [v2_entries_keyCount hex]
      exact hcount
    exact alookup_buildMap_of_count_one hmem2 hcnt
  · obtain ⟨tgs2, groups, htg2, hex, htm⟩ := parse_v3_destruct hfv h1 h2 h3 hok
    rw [htg] at htg2
    cases htg2
    subst htm
    subst htagkey
    have hfa2 := v3_groups_forall₂ hex
    have hkeys := v3_tm_keys hex
    have hbuild : buildMap (groups.map Prod.fst) = groups.map Prod.fst :=
      buildMap_eq_self_of_nodup _ (by rw [hkeys]; exact hnd)
    rw [hbuild]
    obtain ⟨lm, hlm, entries, images, hge, hlmeq⟩ :=
      alookup_of_forall₂ (fun gd lm => ∃ entries images,
        v3GroupEntries none gd = .ok (entries, images) ∧
          lm = buildMap entries) hfa2 hgd
    subst hlmeq
    refine ⟨buildMap entries, hlm, ?_⟩
    have hmem := v3GroupEntries_mem hge hlisted
    have hcnt : keyCount entries task = 1 := by
      rw [v3GroupEntries_keyCount hge]
      exact hcount
    exact alookup_buildMap_of_count_one hmem hcnt

/-- C2: a config dictionary without `"format_version"`, or whose
`format_version` value equals (in Python's `==` sense, `pyEqFloat`) none of
1.0, 2.0, 3.0, makes `parse_launcher_config` raise — it never returns a
task map.  The raise is modelled as `Except.error`; at process level the
uncaught exception terminates the invocation with a non-zero exit code. -/
theorem parse_launcher_config_raises_on_unknown_version
    (org : Option String) (cfg : List (String × J))
    (h : ∀ fv, alookup cfg "format_version" = some fv →
      pyEqFloat fv 1 = false ∧ pyEqFloat fv 2 = false ∧
        pyEqFloat fv 3 = false) :
    ∃ e, parse_launcher_config org (J.obj cfg) = .error e := by
  cases hfv : alookup cfg "format_version" with
  | none =>
    refine ⟨"format is a required key in the launcher config.", ?_⟩
    unfold parse_launcher_config
    simp only []
    rw [hfv]
    rfl
  | some fv =>
    obtain ⟨h1, h2, h3⟩ := h fv hfv
    refine ⟨"Invalid format type.", ?_⟩
    unfold parse_launcher_config
    simp only []
    rw [hfv]
    simp only []
    rw [if_neg (bool_not_eq_true h1), if_neg (bool_not_eq_true h2),
      if_neg (bool_not_eq_true h3)]
    rfl

/-- C2 witness: a concrete config whose `format_version` is the string
`"4.0"` is rejected. -/
theorem parse_launcher_config_raises_on_unknown_version_witness :
    ∃ e, parse_launcher_config none
      (J.obj [("format_version", J.str "4.0"),
        ("dockers", J.obj [])]) = .error e :=
  parse_launcher_config_raises_on_unknown_version none
    [("format_version", J.str "4.0"), ("dockers", J.obj [])]
    (by
      intro fv hfv
      replace hfv : some (J.str "4.0") = some fv := hfv
      cases hfv
      exact ⟨rfl, rfl, rfl⟩)

theorem alookup_isSome_of_mem_keys {α : Type} {m : List (String × α)}
    {k : String} (h : k ∈ m.map Prod.fst) : ∃ v, alookup m k = some v := by
  induction m with
  | nil => cases h
  | cons kv rest ih =>
    obtain ⟨a, b⟩ := kv
    by_cases ha : a = k
    · exact ⟨b, by simp [alookup, ha]⟩
    · have hrest : k ∈ rest.map Prod.fst := by
        rcases List.mem_cons.mp h with heq | hm
        · exact absurd heq.symm ha
        · exact hm
      obtain ⟨v, hv⟩ := ih hrest
      exact ⟨v, by simp [alookup, ha, hv]⟩

theorem alookup_buildMap_isSome_of_mem {α : Type}
    {entries : List (String × α)} {k : String}
    (h : k ∈ entries.map Prod.fst) :
    ∃ v, alookup (buildMap entries) k = some v := by
  have hrev : k ∈ entries.reverse.map Prod.fst := by
    rw [List.map_reverse, List.mem_reverse]
    exact h
  obtain ⟨v, hv⟩ := alookup_isSome_of_mem_keys hrev
  exact ⟨v, by rw [alookup_buildMap]; exact hv⟩

/-- C3: the task map is grouped by task-group only for format 3.0: there
its top-level keys are exactly the keys of the config's `task_group`
section (unique, as keys of a JSON object), whereas for formats 1.0 and
2.0 the single top-level key is `"container_actions"`, and the map under
it contains every task listed in the config. -/
theorem parse_launcher_config_task_map_keys
    (org : Option String) (cfg : List (String × J))
    (tm : List (String × List (String × Task))) (imgs : List String) (fv : J)
    (hok : parse_launcher_config org (J.obj cfg) = .ok (tm, imgs))
    (hfv : alookup cfg "format_version" = some fv) :
    ((pyEqFloat fv 1 = true ∨
        (pyEqFloat fv 1 = false ∧ pyEqFloat fv 2 = true)) →
      tm.map Prod.fst = ["container_actions"]) ∧
    (pyEqFloat fv 1 = true →
      ∀ dockers task image tag reg digest,
        alookup cfg "dockers" = some (J.obj dockers) →
        v1Listed dockers task image tag reg digest →
        ∃ lm tk, alookup tm "container_actions" = some lm ∧
          alookup lm task = some tk) ∧
    ((pyEqFloat fv 1 = false ∧ pyEqFloat fv 2 = true) →
      ∀ dockers task image tagKey reg digest,
        alookup cfg "dockers" = some (J.obj dockers) →
        v2Listed dockers task image tagKey reg digest →
        ∃ lm tk, alookup tm "container_actions" = some lm ∧
          alookup lm task = some tk) ∧
    ((pyEqFloat fv 1 = false ∧ pyEqFloat fv 2 = false ∧
        pyEqFloat fv 3 = true) →
      ∀ tgs, alookup cfg "task_group" = some (J.obj tgs) →
        (tgs.map Prod.fst).Nodup →
        tm.map Prod.fst = tgs.map Prod.fst) := by
  refine ⟨?_, ?_, ?_, ?_⟩
  · rintro (h1 | ⟨h1, h2⟩)
    · obtain ⟨dockers, lists, hdk, hex, htm⟩ := parse_v1_destruct hfv h1 hok
      rw [htm]
      rfl
    · obtain ⟨dockers, lists, hdk, hex, htm⟩ :=
        parse_v2_destruct hfv h1 h2 hok
      rw [htm]
      rfl
  · intro h1 dockers task image tag reg digest hdk hlisted
    obtain ⟨dockers2, lists, hdk2, hex, htm⟩ := parse_v1_destruct hfv h1 hok
    rw [hdk] at hdk2
    cases hdk2
    subst htm
    obtain ⟨dd, hdd, ⟨ts, hts, htask⟩, htag, hreg, hdig⟩ := hlisted
    have himg : image ∈ dockers.map Prod.fst := mem_keys_of_alookup_eq_some hdd
    have hfa := (exMapM_ok_iff _ _ _).mp hex
    obtain ⟨es, hesmem, hok1⟩ := forall₂_mem_left hfa himg
    have hmem := v1ImageEntries_mem hok1 hdd hts htask htag hreg hdig
    have hkey : task ∈ lists.flatten.map Prod.fst :=
      List.mem_map_of_mem Prod.fst (List.mem_flatten.mpr ⟨es, hesmem, hmem⟩)
    obtain ⟨tk, htk⟩ := alookup_buildMap_isSome_of_mem hkey
    exact ⟨buildMap lists.flatten, tk, by simp [alookup], htk⟩
  · rintro ⟨h1, h2⟩ dockers task image tagKey reg digest hdk hlisted
    obtain ⟨dockers2, lists, hdk2, hex, htm⟩ := parse_v2_destruct hfv h1 h2 hok
    rw [hdk] at hdk2
    cases hdk2
    subst htm
    obtain ⟨dd, hdd, hinner⟩ := hlisted
    have himg : image ∈ dockers.map Prod.fst := mem_keys_of_alookup_eq_some hdd
    have hfa := (exMapM_ok_iff _ _ _).mp hex
    obtain ⟨es, hesmem, hok1⟩ := forall₂_mem_left hfa himg
    have hmem := v2ImageEntries_mem hok1 hdd hinner
    have hkey : task ∈ lists.flatten.map Prod.fst :=
      List.mem_map_of_mem Prod.fst (List.mem_flatten.mpr ⟨es, hesmem, hmem⟩)
    obtain ⟨tk, htk⟩ := alookup_buildMap_isSome_of_mem hkey
    exact ⟨buildMap lists.flatten, tk, by simp [alookup], htk⟩
  · rintro ⟨h1, h2, h3⟩ tgs htg hnd
    obtain ⟨tgs2, groups, htg2, hex, htm⟩ := parse_v3_destruct hfv h1 h2 h3 hok
    rw [htg] at htg2
    cases htg2
    subst htm
    rw [buildMap_eq_self_of_nodup _ (by rw [v3_tm_keys hex]; exact hnd)]
    exact v3_tm_keys hex

/-- A concrete format-3.0 configuration with two task groups used to
exercise the parser theorems. -/
def exGd1 : J :=
  J.obj [("dockers", J.obj [("img", J.obj [
    ("5.0", J.obj [("docker_registry", J.str "nvcr.io"),
      ("docker_digest", J.str "sha"),
      ("tasks", J.arr [J.str "a"])])])])]

/-- Second (empty) task group of the example configuration. -/
def exGd2 : J := J.obj [("dockers", J.obj [])]

/-- Fields of the example format-3.0 launcher config. -/
def exCfgV3 : List (String × J) :=
  [("format_version", J.num 3),
   ("task_group", J.obj [("g1", exGd1), ("g2", exGd2)])]

/-- The task record the example config lists under group `g1`. -/
def exTaskA : Task :=
  { name := J.str "a"
    docker_image := some (J.str "img")
    docker_tag := some (J.str "5.0")
    docker_registry := some (J.str "nvcr.io")
    docker_digest := some (J.str "sha") }

/-- The task map produced for the example format-3.0 config. -/
def exTmV3 : List (String × List (String × Task)) :=
  [("g1", [("a", exTaskA)]), ("g2", [])]

/-- C3 witness: for the concrete format-3.0 config, the task-map keys are
exactly the task-group keys. -/
theorem parse_launcher_config_task_map_keys_witness :
    ((pyEqFloat (J.num 3) 1 = true ∨
        (pyEqFloat (J.num 3) 1 = false ∧ pyEqFloat (J.num 3) 2 = true)) →
      exTmV3.map Prod.fst = ["container_actions"]) ∧
    (pyEqFloat (J.num 3) 1 = true →
      ∀ dockers task image tag reg digest,
        alookup exCfgV3 "dockers" = some (J.obj dockers) →
        v1Listed dockers task image tag reg digest →
        ∃ lm tk, alookup exTmV3 "container_actions" = some lm ∧
          alookup lm task = some tk) ∧
    ((pyEqFloat (J.num 3) 1 = false ∧ pyEqFloat (J.num 3) 2 = true) →
      ∀ dockers task image tagKey reg digest,
        alookup exCfgV3 "dockers" = some (J.obj dockers) →
        v2Listed dockers task image tagKey reg digest →
        ∃ lm tk, alookup exTmV3 "container_actions" = some lm ∧
          alookup lm task = some tk) ∧
    ((pyEqFloat (J.num 3) 1 = false ∧ pyEqFloat (J.num 3) 2 = false ∧
        pyEqFloat (J.num 3) 3 = true) →
      ∀ tgs, alookup exCfgV3 "task_group" = some (J.obj tgs) →
        (tgs.map Prod.fst).Nodup →
        exTmV3.map Prod.fst = tgs.map Prod.fst) :=
  parse_launcher_config_task_map_keys none exCfgV3 exTmV3 ["img"] (J.num 3)
    (by rfl) (by rfl)

/-- C1 witness: in the example format-3.0 config, task `a` (listed once,
under image `img`, tag `5.0`, registry `nvcr.io`, digest `sha`) is mapped
in group `g1` to exactly that image, tag, registry and digest. -/
theorem parse_launcher_config_selects_listed_task_witness :
    ∃ lm, alookup exTmV3 "g1" = some lm ∧
      alookup lm "a" = some
        { name := J.str "a"
          docker_image := some (J.str "img")
          docker_tag := some (J.str "5.0")
          docker_registry := some (J.str "nvcr.io")
          docker_digest := some (J.str "sha") } :=
  parse_launcher_config_selects_listed_task exCfgV3 exTmV3 ["img"] (J.num 3)
    "g1" "a" "img" (J.str "5.0") (J.str "nvcr.io") (some (J.str "sha"))
    (by rfl) (by rfl)
    (Or.inr (Or.inr ⟨by rfl, by rfl, by rfl,
      [("g1", exGd1), ("g2", exGd2)], by rfl, by simp,
      exGd1, by rfl,
      ⟨"5.0", rfl,
        [("img", J.obj [("5.0", J.obj [("docker_registry", J.str "nvcr.io"),
          ("docker_digest", J.str "sha"),
          ("tasks", J.arr [J.str "a"])])])],
        by rfl,
        [("5.0", J.obj [("docker_registry", J.str "nvcr.io"),
          ("docker_digest", J.str "sha"),
          ("tasks", J.arr [J.str "a"])])],
        by simp [exGd1],
        ⟨[("docker_registry", J.str "nvcr.io"),
          ("docker_digest", J.str "sha"),
          ("tasks", J.arr [J.str "a"])], by rfl,
          ⟨[J.str "a"], by rfl, by simp⟩, by rfl, by rfl⟩⟩,
      by rfl⟩))

theorem alookup_eq_none_of_forall_ne {α : Type} {m : List (String × α)}
    {k : String} (h : ∀ kv ∈ m, ¬ kv.1 = k) : alookup m k = none := by
  induction m with
  | nil => rfl
  | cons kv rest ih =>
    obtain ⟨a, b⟩ := kv
    have ha : ¬ a = k := h (a, b) (List.mem_cons_self _ _)
    simp only [alookup, if_neg ha]
    exact ih (fun kv2 hm => h kv2 (List.mem_cons_of_mem _ hm))


theorem forall₂_mem_right {α β : Type} {R : α → β → Prop} {l : List α}
    {ys : List β} (h : List.Forall₂ R l ys) {y : β} (hy : y ∈ ys) :
    ∃ x ∈ l, R x y := by
  induction h with
  | nil => cases hy
  | cons hr hrest ih =>
    rcases List.mem_cons.mp hy with heq | hmem
    · subst heq
      exact ⟨_, List.mem_cons_self _ _, hr⟩
    · obtain ⟨x, hx, hrx⟩ := ih hmem
      exact ⟨x, List.mem_cons_of_mem _ hx, hrx⟩

/-- C9: `Task.from_config`'s key-validation assertion admits only the four
mandatory keys, so a config that contains `"docker_digest"` raises even
though the function's optional-argument handling below would accept it;
consequently a `Task` returned by `from_config` always has
`docker_digest = None`. -/
theorem from_config_rejects_docker_digest (org : Option String) :
    (∀ fields v, alookup fields "docker_digest" = some v →
      ∃ e, Task.from_config org (J.obj fields) = .error e) ∧
    (∀ j t, Task.from_config org j = .ok t → t.docker_digest = none) := by
  constructor
  · intro fields v hv
    refine ⟨"AssertionError: config keys must be mandatory args", ?_⟩
    have hmem := mem_of_alookup_eq_some hv
    have hall : fields.all (fun kv => mandatory_args.contains kv.1) = false := by
      rw [List.all_eq_false]
      refine ⟨("docker_digest", v), hmem, ?_⟩
      simp [mandatory_args]
    unfold Task.from_config
    simp only []
    rw [hall]
    rfl
  · intro j t hok
    cases j with
    | obj fields =>
      simp only [Task.from_config] at hok
      cases hall : fields.all (fun kv => mandatory_args.contains kv.1) with
      | false =>
        rw [hall] at hok
        cases hok
      | true =>
        rw [hall] at hok
        simp only [Bool.not_true] at hok
        rw [if_neg (by exact Bool.false_ne_true)] at hok
        have hnone : alookup fields "docker_digest" = none := by
          apply alookup_eq_none_of_forall_ne
          intro kv hm heq
          have hkv := List.all_eq_true.mp hall kv hm
          rw [heq] at hkv
          simp [mandatory_args] at hkv
        cases hname : alookup fields "name" with
        | none => rw [getItem_none hname, error_bind] at hok; cases hok
        | some name =>
          rw [getItem_some hname, ok_bind] at hok
          cases himg : alookup fields "docker_image" with
          | none => rw [getItem_none himg, error_bind] at hok; cases hok
          | some image =>
            rw [getItem_some himg, ok_bind] at hok
            cases htag : alookup fields "docker_tag" with
            | none => rw [getItem_none htag, error_bind] at hok; cases hok
            | some tag =>
              rw [getItem_some htag, ok_bind] at hok
              cases hreg : alookup fields "docker_registry" with
              | none => rw [getItem_none hreg, error_bind] at hok; cases hok
              | some reg =>
                rw [getItem_some hreg, ok_bind] at hok
                replace hok : Except.ok (Task.make org name (some image)
                  (some tag) (some reg)
                  (optGet (J.obj fields) "docker_digest")) =
                    Except.ok t := hok
                cases hok
                show (Task.make org name (some image) (some tag) (some reg)
                  (optGet (J.obj fields) "docker_digest")).docker_digest = none
                have : optGet (J.obj fields) "docker_digest" = none := hnone
                rw [show (Task.make org name (some image) (some tag)
                  (some reg) (optGet (J.obj fields)
                    "docker_digest")).docker_digest =
                  optGet (J.obj fields) "docker_digest" from rfl, this]
    | null => cases hok
    | bool b => cases hok
    | num q => cases hok
    | str s => cases hok
    | arr l => cases hok

/-- Mandatory-keys-only config used to exercise `Task.from_config`. -/
def exFromCfgFields : List (String × J) :=
  [("name", J.str "t"), ("docker_image", J.str "i"),
   ("docker_tag", J.str "g"), ("docker_registry", J.str "r")]

/-- The task `Task.from_config` builds from `exFromCfgFields`. -/
def exFromCfgTask : Task :=
  { name := J.str "t"
    docker_image := some (J.str "i")
    docker_tag := some (J.str "g")
    docker_registry := some (J.str "r")
    docker_digest := none }

/-- C9 witness: a concrete config with `docker_digest` raises, and the task
built from a concrete digest-free config has no digest. -/
theorem from_config_rejects_docker_digest_witness :
    (∃ e, Task.from_config none
      (J.obj (exFromCfgFields ++ [("docker_digest", J.str "d")])) =
        .error e) ∧
    exFromCfgTask.docker_digest = none :=
  ⟨(from_config_rejects_docker_digest none).1
      (exFromCfgFields ++ [("docker_digest", J.str "d")]) (J.str "d")
      (by rfl),
   (from_config_rejects_docker_digest none).2 (J.obj exFromCfgFields)
      exFromCfgTask (by rfl)⟩

/-! ### `docker_handler.py` -/

/-- A volume binding as built by `formatted_mounts`:
`{"bind": destination, "mode": "rw"}`. -/
structure VolumeBind where
  bind : String
  mode : String

/-- One loop iteration of `formatted_mounts`:
`source_path = os.path.realpath(mount["source"])`,
`destination_path = os.path.realpath(mount["destination"])`, producing the
entry `volumes[source_path] = {"bind": destination_path, "mode": "rw"}`.
`os.path.realpath` is an external effect, passed as a function. -/
def formatted_mount_entry (realpath : String → String) (mount : J) :
    Except String (String × VolumeBind) := do
  let srcJ ← getItem mount "source"
  let .str src := srcJ | throw "TypeError: realpath expects str"
  let dstJ ← getItem mount "destination"
  let .str dst := dstJ | throw "TypeError: realpath expects str"
  pure (realpath src, VolumeBind.mk (realpath dst) "rw")

/-- `DockerHandler.formatted_mounts`: build the `volumes` dict keyed by the
source real path (the list argument is a `list` by construction, so the
isinstance assertion holds). -/
def formatted_mounts (realpath : String → String)
    (mountpoints_list : List J) :
    Except String (List (String × VolumeBind)) := do
  let pairs ← exMapM (formatted_mount_entry realpath) mountpoints_list
  pure (buildMap pairs)

/-- `DockerHandler.formatted_envs`: `"{variable}={value}"` per entry (the
values are JSON strings in every well-formed mounts file). -/
def formatted_env_entry (ev : J) : Except String String := do
  let varJ ← getItem ev "variable"
  let .str v := varJ | throw "TypeError: variable is not a string"
  let valJ ← getItem ev "value"
  let .str w := valJ | throw "TypeError: value is not a string"
  pure (v ++ "=" ++ w)

/-- `DockerHandler.formatted_envs` over the whole list. -/
def formatted_envs (env_var_list : List J) : Except String (List String) :=
  exMapM formatted_env_entry env_var_list

/-- Result of `DockerHandler._get_mount_env_data`: the mutated mount
dicts, the env-var dicts and the `DockerOptions` value. -/
structure MountEnvData where
  mount_points : List J
  env_vars : List J
  docker_options : J

/-- The `Mounts` loop body of `_get_mount_env_data`: assert `source` and
`destination` keys, rewrite both through
`os.path.realpath(os.path.expanduser(...))`, and raise `ValueError` when
the rewritten source does not exist on the host.  `expanduser`/`realpath`
and the existence check are external effects, passed as functions. -/
def process_mount (expanduser realpath : String → String)
    (pathExists : String → Bool) (mount : J) : Except String J :=
  match mount with
  | .obj mf =>
    if !((mf.map Prod.fst).contains "source" &&
        (mf.map Prod.fst).contains "destination") then
      .error "Mounts are not formatted correctly."
    else
      match alookup mf "source", alookup mf "destination" with
      | some (J.str src), some (J.str dst) =>
        let newSrc := realpath (expanduser src)
        let newDst := realpath (expanduser dst)
        let mf2 := dictInsert (dictInsert mf "source" (J.str newSrc))
          "destination" (J.str newDst)
        if pathExists newSrc then .ok (J.obj mf2)
        else .error ("Mount point source path doesn't exist. " ++ newSrc)
      | _, _ => .error "TypeError: expanduser expects str"
  | _ => .error "AttributeError: keys"

/-- The `Envs` loop body of `_get_mount_env_data`: assert `variable` and
`value` keys. -/
def env_entry_check (ev : J) : Except String J :=
  match ev with
  | .obj ef =>
    if (ef.map Prod.fst).contains "variable" &&
        (ef.map Prod.fst).contains "value" then .ok ev
    else .error "Env variables aren't formatter correctly."
  | _ => .error "AttributeError: keys"

/-- One iteration of the `for key, value in data.items()` loop of
`_get_mount_env_data`: `if key == "Mounts": ... elif key == "Envs": ...
elif key == "DockerOptions": ... else: raise KeyError`. -/
def mount_env_step (expanduser realpath : String → String)
    (pathExists : String → Bool) (acc : MountEnvData) (kv : String × J) :
    Except String MountEnvData :=
  if kv.1 = "Mounts" then
    match kv.2 with
    | .arr mounts => do
      let processed ← exMapM (process_mount expanduser realpath pathExists)
        mounts
      pure { acc with mount_points := acc.mount_points ++ processed }
    | _ => .error "TypeError: Mounts is not iterable"
  else if kv.1 = "Envs" then
    match kv.2 with
    | .arr envs => do
      let checked ← exMapM env_entry_check envs
      pure { acc with env_vars := acc.env_vars ++ checked }
    | _ => .error "TypeError: Envs is not iterable"
  else if kv.1 = "DockerOptions" then
    pure { acc with docker_options := kv.2 }
  else
    .error ("Invalid field " ++ kv.1 ++ " found in the mounts file.")

/-- `DockerHandler._get_mount_env_data`: empty result when the mounts file
does not exist; otherwise assert the `Mounts` key is present and run the
`data.items()` loop. -/
def get_mount_env_data (expanduser realpath : String → String)
    (pathExists : String → Bool) (fileExists : Bool) (data : J) :
    Except String MountEnvData :=
  if !fileExists then .ok ⟨[], [], J.obj []⟩
  else
    match data with
    | .obj fields =>
      if !((fields.map Prod.fst).contains "Mounts") then
        .error "Invalid json file. Requires Mounts key."
      else
        exFoldl (mount_env_step expanduser realpath pathExists)
          ⟨[], [], J.obj []⟩ fields
    | _ => .error "AttributeError: keys"

theorem formatted_mount_entry_ok_destruct {rp : String → String} {mount : J}
    {p : String × VolumeBind}
    (h : formatted_mount_entry rp mount = .ok p) :
    ∃ mf src dst, mount = J.obj mf ∧
      alookup mf "source" = some (J.str src) ∧
      alookup mf "destination" = some (J.str dst) ∧
      p = (rp src, VolumeBind.mk (rp dst) "rw") := by
  cases mount with
  | obj mf =>
    unfold formatted_mount_entry at h
    cases hsrc : alookup mf "source" with
    | none => rw [getItem_none hsrc, error_bind] at h; cases h
    | some srcJ =>
      rw [getItem_some hsrc, ok_bind] at h
      cases srcJ with
      | str src =>
        simp only [] at h
        cases hdst : alookup mf "destination" with
        | none => rw [getItem_none hdst, error_bind] at h; cases h
        | some dstJ =>
          rw [getItem_some hdst, ok_bind] at h
          cases dstJ with
          | str dst =>
            replace h : Except.ok (rp src, VolumeBind.mk (rp dst) "rw") =
              Except.ok p := h
            cases h
            exact ⟨mf, src, dst, rfl, hsrc, hdst, rfl⟩
          | null => cases h
          | bool b => cases h
          | num q => cases h
          | arr l => cases h
          | obj l => cases h
      | null => cases h
      | bool b => cases h
      | num q => cases h
      | arr l => cases h
      | obj l => cases h
  | null => cases h
  | bool b => cases h
  | num q => cases h
  | str s => cases h
  | arr l => cases h

/-- C10: every volume binding produced by `formatted_mounts` has access
mode `"rw"` and binds the real path of some mount's source to the real
path of its destination; and every mount's source real path is bound, with
mode `"rw"` — no access mode from the mount descriptor is consulted. -/
theorem formatted_mounts_always_rw (rp : String → String) (ms : List J)
    (vols : List (String × VolumeBind))
    (hok : formatted_mounts rp ms = .ok vols) :
    (∀ p ∈ vols, p.2.mode = "rw" ∧
      ∃ mf src dst, J.obj mf ∈ ms ∧
        alookup mf "source" = some (J.str src) ∧
        alookup mf "destination" = some (J.str dst) ∧
        p.1 = rp src ∧ p.2.bind = rp dst) ∧
    (∀ mf src, J.obj mf ∈ ms →
      alookup mf "source" = some (J.str src) →
      ∃ b, alookup vols (rp src) = some b ∧ b.mode = "rw") := by
  unfold formatted_mounts at hok
  cases hex : exMapM (formatted_mount_entry rp) ms with
  | error e => rw [hex, error_bind] at hok; cases hok
  | ok pairs =>
    rw [hex, ok_bind] at hok
    replace hok : Except.ok (buildMap pairs) = Except.ok vols := hok
    cases hok
    have hfa := (exMapM_ok_iff _ _ _).mp hex
    constructor
    · intro p hp
      have hp2 : p ∈ pairs := mem_buildMap_elim hp
      obtain ⟨mount, hm, hokp⟩ := forall₂_mem_right hfa hp2
      obtain ⟨mf, src, dst, heq, hsrc, hdst, hpe⟩ :=
        formatted_mount_entry_ok_destruct hokp
      subst heq
      subst hpe
      exact ⟨rfl, mf, src, dst, hm, hsrc, hdst, rfl, rfl⟩
    · intro mf src hm hsrc
      obtain ⟨p, hpmem, hokp⟩ := forall₂_mem_left hfa hm
      obtain ⟨mf2, src2, dst2, heq2, hsrc2, hdst2, hp2⟩ :=
        formatted_mount_entry_ok_destruct hokp
      have hmf : mf2 = mf := by injection heq2.symm
      subst hmf
      rw [hsrc] at hsrc2
      have hs : src = src2 := by
        have := Option.some.inj hsrc2
        injection this
      subst hs
      have hkey : rp src ∈ pairs.reverse.map Prod.fst := by
        have hpm : p ∈ pairs.reverse := List.mem_reverse.mpr hpmem
        have hmap := List.mem_map_of_mem Prod.fst hpm
        rw [hp2] at hmap
        exact hmap
      obtain ⟨b, hb⟩ := alookup_isSome_of_mem_keys hkey
      refine ⟨b, by rw [alookup_buildMap]; exact hb, ?_⟩
      have hmemb : (rp src, b) ∈ pairs :=
        List.mem_reverse.mp (mem_of_alookup_eq_some hb)
      obtain ⟨mount3, hm3, hok3⟩ := forall₂_mem_right hfa hmemb
      obtain ⟨mf3, src3, dst3, heq3, hsrc3, hdst3, hp3⟩ :=
        formatted_mount_entry_ok_destruct hok3
      have : b = VolumeBind.mk (rp dst3) "rw" := congrArg Prod.snd hp3
      rw [this]

/-- C10 witness: one concrete mount, identity real-path function. -/
theorem formatted_mounts_always_rw_witness :
    (∀ p ∈ [("/a", VolumeBind.mk "/b" "rw")], p.2.mode = "rw" ∧
      ∃ mf src dst,
        J.obj mf ∈ [J.obj [("source", J.str "/a"),
          ("destination", J.str "/b")]] ∧
        alookup mf "source" = some (J.str src) ∧
        alookup mf "destination" = some (J.str dst) ∧
        p.1 = id src ∧ p.2.bind = id dst) ∧
    (∀ mf src,
      J.obj mf ∈ [J.obj [("source", J.str "/a"),
        ("destination", J.str "/b")]] →
      alookup mf "source" = some (J.str src) →
      ∃ b, alookup [("/a", VolumeBind.mk "/b" "rw")] (id src) = some b ∧
        b.mode = "rw") :=
  formatted_mounts_always_rw id
    [J.obj [("source", J.str "/a"), ("destination", J.str "/b")]]
    [("/a", VolumeBind.mk "/b" "rw")] (by rfl)

theorem not_containsKey_of_alookup_eq_none {α : Type}
    {m : List (String × α)} {k : String} (h : alookup m k = none) :
    (m.map Prod.fst).contains k = false := by
  cases hc : (m.map Prod.fst).contains k with
  | false => rfl
  | true =>
    exfalso
    have hm : k ∈ m.map Prod.fst := by simpa using hc
    obtain ⟨v, hv⟩ := alookup_isSome_of_mem_keys hm
    rw [h] at hv
    cases hv

theorem process_mount_error_of_missing_source {eu rp : String → String}
    {pe : String → Bool} {mf : List (String × J)} {src : String}
    (hsrc : alookup mf "source" = some (J.str src))
    (hpe : pe (rp (eu src)) = false) :
    ∃ e, process_mount eu rp pe (J.obj mf) = .error e := by
  simp only [process_mount]
  have hcs : (mf.map Prod.fst).contains "source" = true := by
    simpa using mem_keys_of_alookup_eq_some hsrc
  cases hcd : (mf.map Prod.fst).contains "destination" with
  | false =>
    refine ⟨"Mounts are not formatted correctly.", ?_⟩
    rw [hcs]
    rfl
  | true =>
    rw [hcs]
    have hmd : "destination" ∈ mf.map Prod.fst := by simpa using hcd
    obtain ⟨dstJ, hdst⟩ := alookup_isSome_of_mem_keys hmd
    rw [hsrc, hdst]
    cases dstJ with
    | str dst =>
      refine ⟨"Mount point source path doesn't exist. " ++ rp (eu src), ?_⟩
      show (if pe (rp (eu src)) = true then _ else _) = _
      rw [hpe]
      rfl
    | null => exact ⟨_, rfl⟩
    | bool b => exact ⟨_, rfl⟩
    | num q => exact ⟨_, rfl⟩
    | arr l => exact ⟨_, rfl⟩
    | obj l => exact ⟨_, rfl⟩

theorem mount_env_step_mounts_error {eu rp : String → String}
    {pe : String → Bool} {ms : List J} {mount : J} {e0 : String}
    (hmem : mount ∈ ms)
    (herr : process_mount eu rp pe mount = .error e0) :
    ∀ acc, ∃ e, mount_env_step eu rp pe acc ("Mounts", J.arr ms) = .error e := by
  intro acc
  unfold mount_env_step
  rw [if_pos rfl]
  simp only []
  have hne : ∀ y, ¬ process_mount eu rp pe mount = Except.ok y := by
    intro y hy
    rw [herr] at hy
    cases hy
  obtain ⟨e, hex⟩ := exMapM_error_of_mem hmem hne
  rw [hex]
  exact ⟨e, rfl⟩

theorem mount_env_step_unknown_key_error {eu rp : String → String}
    {pe : String → Bool} {key : String} {v : J}
    (h1 : ¬ key = "Mounts") (h2 : ¬ key = "Envs")
    (h3 : ¬ key = "DockerOptions") :
    ∀ acc, ∃ e, mount_env_step eu rp pe acc (key, v) = .error e := by
  intro acc
  unfold mount_env_step
  rw [if_neg h1, if_neg h2, if_neg h3]
  exact ⟨_, rfl⟩

/-- C4: `_get_mount_env_data` raises (returning no bindings) whenever the
mounts-file data has a `Mounts` entry containing a mount whose (expanded,
real-path-resolved) source does not exist on the host, or a top-level key
other than `Mounts`/`Envs`/`DockerOptions`, or no `Mounts` key at all. -/
theorem get_mount_env_data_raises (eu rp : String → String)
    (pe : String → Bool) (fields : List (String × J))
    (h :
      (∃ ms mf src, alookup fields "Mounts" = some (J.arr ms) ∧
        J.obj mf ∈ ms ∧
        alookup mf "source" = some (J.str src) ∧
        pe (rp (eu src)) = false) ∨
      (∃ kv, kv ∈ fields ∧ ¬ kv.1 = "Mounts" ∧ ¬ kv.1 = "Envs" ∧
        ¬ kv.1 = "DockerOptions") ∨
      alookup fields "Mounts" = none) :
    ∃ e, get_mount_env_data eu rp pe true (J.obj fields) = .error e := by
  unfold get_mount_env_data
  simp only [Bool.not_true, Bool.false_eq_true, if_false]
  rcases h with ⟨ms, mf, src, hms, hmem, hsrc, hpe⟩ | ⟨kv, hkv, h1, h2, h3⟩ |
    hnone
  · have hcm : (fields.map Prod.fst).contains "Mounts" = true := by
      simpa using mem_keys_of_alookup_eq_some hms
    rw [hcm]
    obtain ⟨e0, herr⟩ := process_mount_error_of_missing_source hsrc hpe
    exact exFoldl_error_of_mem (mem_of_alookup_eq_some hms)
      (mount_env_step_mounts_error hmem herr) _
  · cases hcm : (fields.map Prod.fst).contains "Mounts" with
    | false =>
      exact ⟨"Invalid json file. Requires Mounts key.", rfl⟩
    | true =>
      obtain ⟨k0, v0⟩ := kv
      exact exFoldl_error_of_mem hkv
        (mount_env_step_unknown_key_error h1 h2 h3) _
  · refine ⟨"Invalid json file. Requires Mounts key.", ?_⟩
    rw [not_containsKey_of_alookup_eq_none hnone]
    rfl

/-- C4 witness: a concrete mounts file whose single mount's source path
does not exist (the host-path existence check returns `false`). -/
theorem get_mount_env_data_raises_witness :
    ∃ e, get_mount_env_data id id (fun _ => false) true
      (J.obj [("Mounts", J.arr [J.obj [("source", J.str "/missing"),
        ("destination", J.str "/d")]])]) = .error e :=
  get_mount_env_data_raises id id (fun _ => false)
    [("Mounts", J.arr [J.obj [("source", J.str "/missing"),
      ("destination", J.str "/d")]])]
    (Or.inl ⟨[J.obj [("source", J.str "/missing"),
        ("destination", J.str "/d")]],
      [("source", J.str "/missing"), ("destination", J.str "/d")],
      "/missing", by rfl, by simp, by rfl, by rfl⟩)

/-! ### Container lifecycle (`run_container` and friends) -/

/-- A locally available image as seen through `images.list` +
`inspect_image`: its `RepoTags` field. -/
structure LocalImage where
  id : String
  repoTags : List String

/-- `DockerHandler._check_image_exists`: walk the local image list and
return `True` iff some image's (non-empty) `RepoTags` contains the
handler's `docker_image` string. -/
def check_image_exists (images : List LocalImage) (docker_image : String) :
    Bool :=
  images.any (fun im =>
    if im.repoTags.isEmpty then false
    else im.repoTags.contains docker_image)

/-- Python `f"{x}"` of an optional string (`None` prints as `"None"`). -/
def pyFormatOpt : Option String → String
  | some s => s
  | none => "None"

/-- The constructor state of a `DockerHandler`. -/
structure DockerHandlerState where
  docker_registry : Option String
  image_name : Option String
  docker_tag : Option String
  docker_digest : Option String

/-- The `docker_image` property: `"{registry}/{name}:{tag}"`. -/
def dockerImage (h : DockerHandlerState) : String :=
  pyFormatOpt h.docker_registry ++ "/" ++ pyFormatOpt h.image_name ++ ":" ++
    pyFormatOpt h.docker_tag

/-- Python truthiness of a JSON value. -/
def pyTruthy : J → Bool
  | .null => false
  | .bool b => b
  | .num q => !(q == 0)
  | .str s => !s.isEmpty
  | .arr l => !l.isEmpty
  | .obj f => !f.isEmpty

/-- `VALID_DOCKER_ARGS` from `docker_handler.py`. -/
def VALID_DOCKER_ARGS : List String :=
  ["user", "ports", "shm_size", "ulimits", "privileged", "network", "tty"]

/-- `DockerHandler.get_docker_option_args`: assert every key is a valid
docker arg and that `ulimits` is a dictionary (the `Ulimit` objects built
from it are opaque to this model). -/
def get_docker_option_args (docker_options : J) :
    Except String (List (String × J)) :=
  match docker_options with
  | .obj fields =>
    exFoldl (fun acc kv =>
      if VALID_DOCKER_ARGS.contains kv.1 then
        if kv.1 = "ulimits" then
          match kv.2 with
          | .obj _ => .ok (dictInsert acc kv.1 kv.2)
          | _ => .error "Ulimits should be a dictionary of params"
        else .ok (dictInsert acc kv.1 kv.2)
      else .error "The parameter mentioned in the config file isn't a valid option.")
      [] fields
  | _ => .error "AttributeError: items"

/-- `run_container`'s tty extraction:
`tty = True; if "tty" in docker_options.keys(): tty = docker_options["tty"]`,
reduced to its truthiness (all later uses are `if tty:`). -/
def ttyOf (docker_options : J) : Except String Bool :=
  match docker_options with
  | .obj fields =>
    match alookup fields "tty" with
    | some v => .ok (pyTruthy v)
    | none => .ok true
  | _ => .error "AttributeError: keys"

/-- Externally visible docker-engine/subprocess steps of `run_container`. -/
inductive DockerAction where
  | pull
  | startContainer
  | execCommand (cmd : String) (ok : Bool)
  | stopContainer

/-- How a `run_container` invocation ends: normal return, `sys.exit`, or a
propagated Python exception. -/
inductive RunResult where
  | completed
  | exited (code : Int)
  | raised (msg : String)

/-- External state and effect outcomes for one `run_container` call. -/
structure DockerWorld where
  images : List LocalImage
  pullOk : Bool
  startOk : Bool
  execOk : Bool
  mountFileExists : Bool
  mountData : J
  expanduser : String → String
  realpath : String → String
  pathExists : String → Bool
  containerId : String

/-- `DockerHandler.run_container`: pull when the image is missing locally
(`sys.exit(1)` if the pull fails), read the mounts file, format volumes and
environment variables, compute the tty flag, validate docker options and
start the container (`sys.exit(1)` if `containers.run` fails), exec the
forwarded command through `subprocess.check_call`, and stop the container
in the `finally` block.  A `CalledProcessError` from `check_call` is caught
but its `output` is always `None` for `check_call`, so the explicit
cleanup-and-exit path in the handler body is skipped and the function still
ends normally after the `finally` stop. -/
def pullPrefix (h : DockerHandlerState) (w : DockerWorld) :
    List DockerAction :=
  if check_image_exists w.images (dockerImage h) then [] else [.pull]

def run_container (h : DockerHandlerState) (w : DockerWorld)
    (task_command : String) : List DockerAction × RunResult :=
  if !(check_image_exists w.images (dockerImage h)) && !w.pullOk then
    ([.pull], .exited 1)
  else
    match get_mount_env_data w.expanduser w.realpath w.pathExists
      w.mountFileExists w.mountData with
    | .error e => (pullPrefix h w, .raised e)
    | .ok data =>
      match formatted_mounts w.realpath data.mount_points with
      | .error e => (pullPrefix h w, .raised e)
      | .ok _volumes =>
        match formatted_envs data.env_vars with
        | .error e => (pullPrefix h w, .raised e)
        | .ok _env_variables =>
          match ttyOf data.docker_options with
          | .error e => (pullPrefix h w, .raised e)
          | .ok tty =>
            match get_docker_option_args data.docker_options with
            | .error e => (pullPrefix h w, .raised e)
            | .ok _docker_args =>
              if !w.startOk then (pullPrefix h w, .exited 1)
              else
                let interactive_option := if tty then "-it" else "-i"
                let formatted_command := "bash -c " ++ "\x27" ++
                  "docker exec " ++ interactive_option ++ " " ++
                  w.containerId ++ " " ++ task_command ++ "\x27"
                (pullPrefix h w ++ [.startContainer,
                  .execCommand formatted_command w.execOk, .stopContainer],
                  .completed)

theorem run_container_shape (h : DockerHandlerState) (w : DockerWorld)
    (cmd : String) :
    ∃ rest, (run_container h w cmd).1 = pullPrefix h w ++ rest ∧
      (rest = [] ∨ ∃ fc, rest = [DockerAction.startContainer,
        DockerAction.execCommand fc w.execOk, DockerAction.stopContainer] ∧
        (run_container h w cmd).2 = RunResult.completed) := by
  unfold run_container
  cases hc : (!(check_image_exists w.images (dockerImage h)) && !w.pullOk) with
  | true =>
    have hchk : check_image_exists w.images (dockerImage h) = false := by
      cases hcheck : check_image_exists w.images (dockerImage h) with
      | false => rfl
      | true => rw [hcheck] at hc; simp at hc
    refine ⟨[], ?_, Or.inl rfl⟩
    unfold pullPrefix
    rw [hchk]
    rfl
  | false =>
    cases hm : get_mount_env_data w.expanduser w.realpath w.pathExists
        w.mountFileExists w.mountData with
    | error e => exact ⟨[], by simp [hm], Or.inl rfl⟩
    | ok data =>
      cases hv : formatted_mounts w.realpath data.mount_points with
      | error e => exact ⟨[], by simp [hm, hv], Or.inl rfl⟩
      | ok volumes =>
        cases he : formatted_envs data.env_vars with
        | error e => exact ⟨[], by simp [hm, hv, he], Or.inl rfl⟩
        | ok envs =>
          cases ht : ttyOf data.docker_options with
          | error e => exact ⟨[], by simp [hm, hv, he, ht], Or.inl rfl⟩
          | ok tty =>
            cases hdo : get_docker_option_args data.docker_options with
            | error e => exact ⟨[], by simp [hm, hv, he, ht, hdo], Or.inl rfl⟩
            | ok args =>
              cases hso : w.startOk with
              | false =>
                exact ⟨[], by simp [hm, hv, he, ht, hdo, hso], Or.inl rfl⟩
              | true =>
                simp only [hm, hv, he, ht, hdo, hso]
                refine ⟨[DockerAction.startContainer,
                  DockerAction.execCommand ("bash -c " ++ "\x27" ++
                    "docker exec " ++ (if tty then "-it" else "-i") ++ " " ++
                    w.containerId ++ " " ++ cmd ++ "\x27") w.execOk,
                  DockerAction.stopContainer], by simp, Or.inr ⟨_, rfl, by simp⟩⟩

/-- C5: whenever `run_container` started a container, the action trace ends
with starting the container, executing the forwarded command (whether it
succeeds or fails) and stopping the container, and `run_container`
completes normally — the `finally` block stops the container on both the
success and the failure path of the exec. -/
theorem run_container_stops_started_container (h : DockerHandlerState)
    (w : DockerWorld) (cmd : String)
    (hstart : DockerAction.startContainer ∈ (run_container h w cmd).1) :
    ∃ pre fc, (run_container h w cmd).1 = pre ++ [DockerAction.startContainer,
      DockerAction.execCommand fc w.execOk, DockerAction.stopContainer] ∧
      (run_container h w cmd).2 = RunResult.completed := by
  obtain ⟨rest, hact, hrest⟩ := run_container_shape h w cmd
  rcases hrest with hnil | ⟨fc, hfc, hres⟩
  · exfalso
    rw [hact, hnil] at hstart
    unfold pullPrefix at hstart
    cases hchk : check_image_exists w.images (dockerImage h) <;>
      rw [hchk] at hstart <;> simp at hstart
  · refine ⟨pullPrefix h w, fc, ?_, hres⟩
    rw [hact, hfc]

/-- C5 witness: a world where the image is present, the mounts file is
absent and the exec fails — the container is still started, exec'd and
stopped, and the call completes. -/
theorem run_container_stops_started_container_witness :
    ∃ pre fc,
      (run_container
        ⟨some "nvcr.io", some "img", some "t", none⟩
        ⟨[⟨"id1", ["nvcr.io/img:t"]⟩], true, true, false, false, J.null,
          id, id, fun _ => true, "c1"⟩ "train").1 =
      pre ++ [DockerAction.startContainer,
        DockerAction.execCommand fc false, DockerAction.stopContainer] ∧
      (run_container
        ⟨some "nvcr.io", some "img", some "t", none⟩
        ⟨[⟨"id1", ["nvcr.io/img:t"]⟩], true, true, false, false, J.null,
          id, id, fun _ => true, "c1"⟩ "train").2 = RunResult.completed :=
  run_container_stops_started_container _ _ "train" (by simp [run_container,
    check_image_exists, dockerImage, pyFormatOpt, get_mount_env_data,
    formatted_mounts, formatted_envs, exMapM, buildMap, ttyOf,
    get_docker_option_args, exFoldl, pullPrefix, alookup])

/-- C6: `run_container` pulls the image if and only if
`registry/name:tag` is absent from the local image list at the time of the
call; in particular no pull happens when the image is present locally. -/
theorem run_container_pulls_iff_image_absent (h : DockerHandlerState)
    (w : DockerWorld) (cmd : String) :
    DockerAction.pull ∈ (run_container h w cmd).1 ↔
      check_image_exists w.images (dockerImage h) = false := by
  obtain ⟨rest, hact, hrest⟩ := run_container_shape h w cmd
  have hpr : ¬ DockerAction.pull ∈ rest := by
    rcases hrest with h0 | ⟨fc, hfc, _⟩
    · rw [h0]; simp
    · rw [hfc]; simp
  rw [hact]
  unfold pullPrefix
  cases hchk : check_image_exists w.images (dockerImage h) with
  | false => simp
  | true => simp [hpr]

/-! ### Instance handlers (`base_instance.py`, `local_instance.py`,
`whl_instance.py`, `builder.py`) -/

/-- `INSTANCE_HANDLER_TASKS` from `base_instance.py`. -/
def INSTANCE_HANDLER_TASKS : List String := ["list", "stop", "info"]

/-- The state a `TAOInstance` (and both subclasses) carries after
`__init__`; `current_config_path` comes from the subclass constructors. -/
structure TAOInstanceState where
  task_map : List (String × List (String × Task))
  dl_tasks : List String
  docker_images : List String
  instance_handler_tasks : List String
  current_config_path : String

/-- Lexicographic code-point comparison of strings (Python's `<=` on
`str`), written over the character lists so that it evaluates. -/
def charListLe : List Char → List Char → Bool
  | [], _ => true
  | _ :: _, [] => false
  | a :: as, b :: bs =>
    if a.val < b.val then true
    else if b.val < a.val then false
    else charListLe as bs

/-- String comparison used by the `sorted` model. -/
def strLeb (a b : String) : Bool := charListLe a.data b.data

/-- Insertion sort on strings, modelling Python's `sorted`. -/
def insertSorted (x : String) : List String → List String
  | [] => [x]
  | y :: ys => if strLeb x y then x :: y :: ys else y :: insertSorted x ys

/-- Python `sorted(list(...))` for strings. -/
def sortStrings (l : List String) : List String := l.foldr insertSorted []

/-- `TAOInstance.__init__`: keep the task map, sort its keys into
`dl_tasks`, store the docker images and the instance-handler task list. -/
def TAOInstance.make (task_map : List (String × List (String × Task)))
    (docker_images : List String) (config_path : String) : TAOInstanceState :=
  { task_map := task_map
    dl_tasks := sortStrings (task_map.map Prod.fst)
    docker_images := docker_images
    instance_handler_tasks := INSTANCE_HANDLER_TASKS
    current_config_path := config_path }

/-- `LocalInstance.from_config` with the file contents supplied by the
caller (file loading is an external effect). -/
def LocalInstance.from_config (overrideRegistry : Option String)
    (config_path : String) (config_data : J) :
    Except String TAOInstanceState := do
  let (task_map, docker_images) ←
    parse_launcher_config overrideRegistry config_data
  pure (TAOInstance.make task_map docker_images config_path)

/-- `WHLInstance.from_config` (the docker image set is discarded). -/
def WHLInstance.from_config (overrideRegistry : Option String)
    (config_path : String) (config_data : J) :
    Except String TAOInstanceState := do
  let (task_map, _) ← parse_launcher_config overrideRegistry config_data
  pure (TAOInstance.make task_map [] config_path)

/-- The two kinds of instance `builder.get_launcher` can return. -/
inductive LauncherInstance where
  | whl (inst : TAOInstanceState)
  | docker (inst : TAOInstanceState)

/-- `builder.get_launcher`: assert `TAO_DOCKER_DISABLE` is `'0'` or `'1'`;
build a `WHLInstance` (supported tasks: the dl tasks) when it is `'1'`,
otherwise a `LocalInstance` (supported tasks: the CLI tasks followed by the
dl tasks). -/
def get_launcher (overrideRegistry : Option String)
    (tao_docker_disable : String) (config_path : String) (config_data : J) :
    Except String (LauncherInstance × List String) := do
  if !(tao_docker_disable = "0" || tao_docker_disable = "1") then
    throw "Invalid value for TAO_DOCKER_DISABLE"
  else if tao_docker_disable = "1" then
    let inst ← WHLInstance.from_config overrideRegistry config_path
      config_data
    pure (.whl inst, inst.dl_tasks)
  else
    let inst ← LocalInstance.from_config overrideRegistry config_path
      config_data
    pure (.docker inst, INSTANCE_HANDLER_TASKS ++ inst.dl_tasks)

/-- `argparse.Namespace` as produced for the built-in task groups. -/
structure CliNamespace where
  container_id : Option (List String) := none
  all : Bool := false
  verbose : Bool := false

/-- The `args` parameter of `launch_command`: either the remaining
command-line tokens (for container tasks) or a parsed namespace (for the
built-in groups). -/
inductive LaunchArgs where
  | script (xs : List String)
  | ns (n : CliNamespace)

/-- A running container as observed through the docker client. -/
structure ContainerInfo where
  short_id : String
  image : String
  status : String
  processes : List (List String)

/-- External state consumed by the `LocalInstance` operations. -/
structure InstanceWorld where
  containers : List ContainerInfo
  dockerLoginOk : Bool
  ciProjectDir : Option String
  configLoad : Except String J

/-- Python `f"{v}"` of an optional JSON value (only string values occur in
well-formed configs; `None` prints as `"None"`). -/
def jFormat : Option J → String
  | some (J.str s) => s
  | some _ => "<json>"
  | none => "None"

/-- The keys of `LocalInstance.handler_map`: one `"{image}:{tag}"` entry
per distinct image/tag pair, in first-encounter order. -/
def handlerKeys (inst : TAOInstanceState) : List String :=
  ((inst.task_map.map (fun g => g.2.map (fun t =>
    jFormat t.2.docker_image ++ ":" ++ jFormat t.2.docker_tag))).flatten).foldl
    setAdd []

/-- Python `needle in hay` on strings (the empty needle occurs in every
string; a non-empty needle occurs iff splitting on it yields more than one
piece). -/
def strContains (hay needle : String) : Bool :=
  needle.isEmpty || (hay.splitOn needle).length > 1

/-- `LocalInstance._get_running_containers`: the handler-map property
asserts the task map is non-empty, the method asserts the handler map has
keys, and the nested comprehension yields one copy of a container per
handler key occurring in its image name. -/
def get_running_containers (inst : TAOInstanceState)
    (containers : List ContainerInfo) : Except String (List ContainerInfo) :=
  if inst.task_map.isEmpty then
    .error "AssertionError: A valid task map wasn't provided."
  else
    let keys := handlerKeys inst
    if keys.length = 0 then
      .error "AssertionError: A valid handler map was not defined."
    else
      .ok (containers.flatMap (fun c =>
        (keys.filter (fun k => strContains c.image k)).map (fun _ => c)))

/-- The per-container scan of `list_running_jobs`: take each process row's
last column, split on spaces, skip rows with fewer than two tokens, and
report the first entrypoint (`split("/")[-1]`) found among the group's
tasks together with the remaining tokens; `""` when none matches. -/
def lrj_scan (tasks_per_group : List String) :
    List (List String) → Except String String
  | [] => .ok ""
  | row :: rest =>
    match row.getLast? with
    | none => .error "IndexError: list index out of range"
    | some command =>
      let parts := command.splitOn " "
      if parts.length < 2 then lrj_scan tasks_per_group rest
      else
        let task_point := parts.getD 1 ""
        let entry := ((task_point.splitOn "/").getLast?).getD ""
        if tasks_per_group.contains entry then
          .ok (entry ++ " " ++ " ".intercalate (parts.drop 2))
        else lrj_scan tasks_per_group rest

/-- `LocalInstance.list_running_jobs`: for each task group in turn, reset
and fill the per-container command table (keyed by container id); the
instance state is read-only and returned unchanged. -/
def list_running_jobs (inst : TAOInstanceState)
    (containers : List ContainerInfo) :
    Except String (List (String × String)) × TAOInstanceState :=
  ((do
    let running ← get_running_containers inst containers
    exFoldl (fun acc tg =>
      exFoldl (fun acc2 c => do
        let cmd ← lrj_scan (tg.2.map Prod.fst) c.processes
        pure (dictInsert acc2 c.short_id cmd)) acc running)
      [] inst.task_map), inst)

/-- What `kill_containers` did. -/
inductive StopOutcome where
  | stoppedAll (ids : List String)
  | stopped (ids : List String)
  | printedHelp

/-- `LocalInstance.kill_containers`: stop every running TAO container when
`kill_all` is set, otherwise stop the given ids (`containers.get` raises
for an unknown id), otherwise print the help message. -/
def kill_containers (inst : TAOInstanceState)
    (containers : List ContainerInfo) (container_ids : Option (List String))
    (kill_all : Bool) : Except String StopOutcome × TAOInstanceState :=
  ((if kill_all then do
      let running ← get_running_containers inst containers
      pure (.stoppedAll (running.map (fun c => c.short_id)))
    else
      match container_ids with
      | some ids => do
        let stopped ← exMapM (fun idx =>
          if (containers.map (fun c => c.short_id)).contains idx then
            pure idx
          else throw "docker.errors.NotFound") ids
        pure (.stopped stopped)
      | none => pure .printedHelp), inst)

/-- What `print_information` printed. -/
inductive InfoOutcome where
  | aborted
  | printedVerbose (config : J)
  | printedSummary (items : List (String × J))

/-- The non-verbose summary of `print_information`: dict values are shown
as their key lists. -/
def summarize (fields : List (String × J)) : List (String × J) :=
  fields.map (fun kv =>
    match kv.2 with
    | J.obj f => (kv.1, J.arr (f.map (fun e => J.str e.1)))
    | v => (kv.1, v))

/-- `LocalInstance.print_information`: a failed config load aborts with
`sys.exit(-1)`; otherwise print the full config (`dict_print` asserts it
is a dict) or its summary.  The instance state is returned unchanged. -/
def print_information (inst : TAOInstanceState) (configLoad : Except String J)
    (verbose : Bool) :
    Except String (InfoOutcome × Option Int) × TAOInstanceState :=
  ((match configLoad with
    | .error _ => .ok (.aborted, some (-1))
    | .ok config =>
      if verbose then
        match config with
        | .obj _ => .ok (.printedVerbose config, none)
        | _ => .error "AssertionError: dict expected"
      else
        match config with
        | .obj fields => .ok (.printedSummary (summarize fields), none)
        | _ => .error "AttributeError: items"), inst)

/-- What `LocalInstance.launch_command` did. -/
inductive LaunchOutcome where
  | ranContainer (handler_key : String) (command : String) (onCI : Bool)
  | noop
  | listedJobs (table : List (String × String))
  | stoppedContainers (oc : StopOutcome)
  | printedInfo (oc : InfoOutcome)

/-- `LocalInstance.launch_command`: a known task group and task run in the
container for that task's image:tag (or silently do nothing for an unknown
task of a known group — the inner `if` has no `else`); an unknown task
group must be one of the instance-handler tasks with `argparse.Namespace`
arguments, and dispatches to `list_running_jobs`, `kill_containers` or
`print_information`. -/
def LocalInstance.launch_command (inst : TAOInstanceState)
    (w : InstanceWorld) (task_group task : String) (args : LaunchArgs) :
    Except String LaunchOutcome × TAOInstanceState :=
  ((match alookup inst.task_map task_group with
    | some tmap =>
      match alookup tmap task with
      | some tk =>
        match args with
        | .ns _ =>
          .error "AssertionError: The arguments must be given as a list to be passed to the docker."
        | .script xs =>
          if !w.dockerLoginOk then
            .error "Docker CLI hasn't been logged in to a registry."
          else
            let handler_key := jFormat tk.docker_image ++ ":" ++
              jFormat tk.docker_tag
            let command :=
              if xs.isEmpty then "/bin/bash"
              else if xs.headD "" = "run" then " ".intercalate (xs.drop 1)
              else task ++ " " ++ " ".intercalate xs
            .ok (.ranContainer handler_key command w.ciProjectDir.isSome)
      | none => .ok .noop
    | none =>
      if !(inst.instance_handler_tasks.contains task_group) then
        .error "AssertionError: The tasks provided must be in instance handlers tasks or supported DL tasks."
      else
        match args with
        | .script _ =>
          .error "AssertionError: The arguments passed to the instance tasks must be argparse.Namespace."
        | .ns n =>
          if task_group = "list" then
            (list_running_jobs inst w.containers).1.map LaunchOutcome.listedJobs
          else if task_group = "stop" then
            (kill_containers inst w.containers n.container_id n.all).1.map
              LaunchOutcome.stoppedContainers
          else if task_group = "info" then
            (print_information inst w.configLoad n.verbose).1.map
              (fun p => LaunchOutcome.printedInfo p.1)
          else
            .error "NotImplementedError: Task asked for wasn't implemented."),
   inst)

/-- What `WHLInstance.launch_command` did. -/
inductive WhlOutcome where
  | ranLocal (command : String) (ok : Bool)

/-- `WHLInstance.launch_command`: known group and task run the command via
`subprocess.check_call` (a `CalledProcessError` is caught and its `output`
is `None`, so the failure path is skipped and the call returns normally);
with empty args the `command += " -h"` line reads an unassigned local;
everything else raises `NotImplementedError` — in particular the built-in
groups `list`/`stop`/`info`, which this class never consults. -/
def WHLInstance.launch_command (inst : TAOInstanceState) (execOk : Bool)
    (task_group task : String) (args : LaunchArgs) :
    Except String WhlOutcome × TAOInstanceState :=
  ((match alookup inst.task_map task_group with
    | some tmap =>
      match alookup tmap task with
      | some _ =>
        match args with
        | .ns _ =>
          .error "AssertionError: The arguments must be given as a list to be passed."
        | .script xs =>
          if xs.isEmpty then
            .error "UnboundLocalError: local variable command referenced before assignment"
          else
            let command :=
              if xs.headD "" = "run" then " ".intercalate (xs.drop 1)
              else task ++ " " ++ " ".intercalate xs
            .ok (.ranLocal command execOk)
      | none =>
        .error "NotImplementedError: Task asked for wasn't implemented to run on WHL instance."
    | none =>
      .error "NotImplementedError: Task group asked for wasn't implemented to run on WHL instance."),
   inst)

theorem get_launcher_zero_eval (org : Option String) (path : String)
    (cfgData : J) :
    get_launcher org "0" path cfgData =
      (do
        let inst ← LocalInstance.from_config org path cfgData
        pure (LauncherInstance.docker inst,
          INSTANCE_HANDLER_TASKS ++ inst.dl_tasks)) := rfl

theorem get_launcher_docker_destruct {org : Option String} {path : String}
    {cfgData : J} {inst : TAOInstanceState} {sup : List String}
    (h : get_launcher org "0" path cfgData = .ok (.docker inst, sup)) :
    ∃ tm imgs, parse_launcher_config org cfgData = .ok (tm, imgs) ∧
      inst = TAOInstance.make tm imgs path := by
  rw [get_launcher_zero_eval] at h
  unfold LocalInstance.from_config at h
  cases hp : parse_launcher_config org cfgData with
  | error e =>
    rw [hp] at h
    replace h : (Except.error e :
        Except String (LauncherInstance × List String)) =
      .ok (.docker inst, sup) := h
    cases h
  | ok p =>
    obtain ⟨tm, imgs⟩ := p
    rw [hp] at h
    replace h : Except.ok
        (LauncherInstance.docker (TAOInstance.make tm imgs path),
          INSTANCE_HANDLER_TASKS ++ (TAOInstance.make tm imgs path).dl_tasks) =
      .ok (.docker inst, sup) := h
    cases h
    exact ⟨tm, imgs, rfl, rfl⟩

/-- C8 (amended): for every launcher instance that `get_launcher` returns
in docker mode (`TAO_DOCKER_DISABLE` unset/`'0'`, i.e. a `LocalInstance`),
invoking `launch_command` with the built-in task groups `list`, `stop`
(`--container_id`/`--all`) or `info` (`--verbose`) dispatches to the
corresponding built-in operation (`list_running_jobs`, `kill_containers`,
`print_information`) rather than failing, provided the config does not
shadow those names with task groups of its own.  (In wheel mode the
`WHLInstance` raises `NotImplementedError` instead — see the
counterexample.) -/
theorem get_launcher_docker_dispatches_builtins
    (org : Option String) (path : String) (cfgData : J)
    (inst : TAOInstanceState) (sup : List String) (w : InstanceWorld)
    (n : CliNamespace) (t : String)
    (hget : get_launcher org "0" path cfgData = .ok (.docker inst, sup))
    (hlist : alookup inst.task_map "list" = none)
    (hstop : alookup inst.task_map "stop" = none)
    (hinfo : alookup inst.task_map "info" = none) :
    (LocalInstance.launch_command inst w "list" t (.ns n)).1 =
      (list_running_jobs inst w.containers).1.map LaunchOutcome.listedJobs ∧
    (LocalInstance.launch_command inst w "stop" t (.ns n)).1 =
      (kill_containers inst w.containers n.container_id n.all).1.map
        LaunchOutcome.stoppedContainers ∧
    (LocalInstance.launch_command inst w "info" t (.ns n)).1 =
      (print_information inst w.configLoad n.verbose).1.map
        (fun p => LaunchOutcome.printedInfo p.1) := by
  obtain ⟨tm, imgs, hp, hinst⟩ := get_launcher_docker_destruct hget
  have hih : inst.instance_handler_tasks = INSTANCE_HANDLER_TASKS := by
    rw [hinst]
    rfl
  refine ⟨?_, ?_, ?_⟩
  · show ((match alookup inst.task_map "list" with
      | some tmap => _
      | none => _ : Except String LaunchOutcome), inst).1 = _
    rw [hlist, hih]
    rfl
  · show ((match alookup inst.task_map "stop" with
      | some tmap => _
      | none => _ : Except String LaunchOutcome), inst).1 = _
    rw [hstop, hih]
    rfl
  · show ((match alookup inst.task_map "info" with
      | some tmap => _
      | none => _ : Except String LaunchOutcome), inst).1 = _
    rw [hinfo, hih]
    rfl

/-- C8 counterexample: in wheel mode (`TAO_DOCKER_DISABLE=1`) the launcher
instance returned by `get_launcher` raises `NotImplementedError` for the
built-in group `list` instead of dispatching to it —
`WHLInstance.launch_command` never consults `instance_handler_tasks`. -/
theorem whl_instance_builtin_list_raises :
    get_launcher none "1" "cfg" (J.obj exCfgV3) =
      .ok (LauncherInstance.whl (TAOInstance.make exTmV3 [] "cfg"),
        ["g1", "g2"]) ∧
    (WHLInstance.launch_command (TAOInstance.make exTmV3 [] "cfg") true
      "list" "" (.ns {})).1 =
      .error "NotImplementedError: Task group asked for wasn't implemented to run on WHL instance." :=
  ⟨rfl, rfl⟩

/-- The docker-mode instance built from the example format-3.0 config. -/
def exLocalInst : TAOInstanceState := TAOInstance.make exTmV3 ["img"] "cfg"

/-- An example external world for the instance operations: no containers
running, docker logged in, not on CI, config loads as an empty object. -/
def exWorld : InstanceWorld := ⟨[], true, none, .ok (J.obj [])⟩

/-- C8 witness: for the concrete docker-mode instance the three built-in
groups dispatch to their operations. -/
theorem get_launcher_docker_dispatches_builtins_witness :
    (LocalInstance.launch_command exLocalInst exWorld "list" "x"
      (.ns {})).1 =
      (list_running_jobs exLocalInst exWorld.containers).1.map
        LaunchOutcome.listedJobs ∧
    (LocalInstance.launch_command exLocalInst exWorld "stop" "x"
      (.ns {})).1 =
      (kill_containers exLocalInst exWorld.containers
        (CliNamespace.container_id {}) (CliNamespace.all {})).1.map
        LaunchOutcome.stoppedContainers ∧
    (LocalInstance.launch_command exLocalInst exWorld "info" "x"
      (.ns {})).1 =
      (print_information exLocalInst exWorld.configLoad
        (CliNamespace.verbose {})).1.map
        (fun p => LaunchOutcome.printedInfo p.1) :=
  get_launcher_docker_dispatches_builtins none "cfg" (J.obj exCfgV3)
    exLocalInst (INSTANCE_HANDLER_TASKS ++ ["g1", "g2"]) exWorld {} "x"
    (by rfl) (by rfl) (by rfl) (by rfl)

/-- C7: none of the instance operations mutates the instance: the state
(including the task map) returned alongside each operation's result equals
the input state, and every `Task` reachable from the task map afterwards
has the same name, image, tag, registry and digest as before. -/
theorem instance_state_immutable
    (inst : TAOInstanceState) (w : InstanceWorld) (tg t : String)
    (args : LaunchArgs) (containers : List ContainerInfo)
    (cids : Option (List String)) (ka : Bool) (cl : Except String J)
    (vb : Bool) :
    (LocalInstance.launch_command inst w tg t args).2 = inst ∧
    (list_running_jobs inst containers).2 = inst ∧
    (kill_containers inst containers cids ka).2 = inst ∧
    (print_information inst cl vb).2 = inst ∧
    (∀ g lm task tk,
      alookup ((LocalInstance.launch_command inst w tg t args).2).task_map
        g = some lm →
      alookup lm task = some tk →
      ∃ lm0 tk0, alookup inst.task_map g = some lm0 ∧
        alookup lm0 task = some tk0 ∧ tk.name = tk0.name ∧
        tk.docker_image = tk0.docker_image ∧
        tk.docker_tag = tk0.docker_tag ∧
        tk.docker_registry = tk0.docker_registry ∧
        tk.docker_digest = tk0.docker_digest) := by
  refine ⟨rfl, rfl, rfl, rfl, ?_⟩
  intro g lm task tk h1 h2
  exact ⟨lm, tk, h1, h2, rfl, rfl, rfl, rfl, rfl⟩

/-- C7 witness: concrete instance, concrete operation, concrete task. -/
theorem instance_state_immutable_witness :
    (LocalInstance.launch_command exLocalInst exWorld "g1" "a"
      (.script ["run", "x"])).2 = exLocalInst ∧
    ∃ lm0 tk0, alookup exLocalInst.task_map "g1" = some lm0 ∧
      alookup lm0 "a" = some tk0 ∧ exTaskA.name = tk0.name ∧
      exTaskA.docker_image = tk0.docker_image ∧
      exTaskA.docker_tag = tk0.docker_tag ∧
      exTaskA.docker_registry = tk0.docker_registry ∧
      exTaskA.docker_digest = tk0.docker_digest :=
  ⟨(instance_state_immutable exLocalInst exWorld "g1" "a"
      (.script ["run", "x"]) [] none false (.ok (J.obj [])) false).1,
   (instance_state_immutable exLocalInst exWorld "g1" "a"
      (.script ["run", "x"]) [] none false (.ok (J.obj [])) false).2.2.2.2
      "g1" [("a", exTaskA)] "a" exTaskA (by rfl) (by rfl)⟩

end Tao
